import Mathlib

/-
Verification development for the dev-aurifi-backend rule engines.

Shallow embedding of:
  - app/utils/apply_rule.py (ApplyRule: build_condition, build_mask,
    perform_ejection, perform_inclusion, apply_ejection_rules,
    apply_inclusion_rules, apply_rules)
  - app/blueprints/transaction_dataset/views.py (build_single_condition,
    build_condition_mask, apply_complex_rules_to_file,
    apply_rule_to_existing_version, delete_sub_version,
    add_column_with_rules)

Datasets are modelled as rectangular tables whose cells are
`Option String` (`none` models pandas NaN/NaT/missing); numeric parsing
(`float` / `pd.to_numeric`) is modelled by a decimal-literal parser into
`ℚ` and day-first date parsing by `parseDate` into a comparable ordinal.
Comparisons with an unparseable side follow the pandas NaN semantics the
source relies on (`NaN == x` is false, `NaN != x` is true, ordering
against NaN is false).  String functions (`strip`, `lower`, `upper`,
`split`) are re-implemented on character lists so that all definitions
reduce inside the kernel.
-/

namespace Aurifi

/-- Whitespace test used by the model of `str.strip()`. -/
def isSpace (c : Char) : Bool :=
  c = ' ' || c = '\t' || c = '\n' || c = '\r'

/-- Model of `str.strip()` on a character list. -/
def trimChars (l : List Char) : List Char :=
  ((l.dropWhile isSpace).reverse.dropWhile isSpace).reverse

/-- ASCII lower-casing of one character. -/
def lowChar (c : Char) : Char :=
  if 65 ≤ c.toNat ∧ c.toNat ≤ 90 then Char.ofNat (c.toNat + 32) else c

/-- ASCII upper-casing of one character. -/
def upChar (c : Char) : Char :=
  if 97 ≤ c.toNat ∧ c.toNat ≤ 122 then Char.ofNat (c.toNat - 32) else c

/-- Model of `str.lower()`. -/
def lowerStr (s : String) : String := ⟨s.data.map lowChar⟩

/-- Model of `str.strip().lower()`. -/
def normLower (s : String) : String := ⟨(trimChars s.data).map lowChar⟩

/-- Model of `str.strip().upper()`. -/
def normUpper (s : String) : String := ⟨(trimChars s.data).map upChar⟩

/-- Model of `str.strip()`. -/
def strTrim (s : String) : String := ⟨trimChars s.data⟩

/-- Splitting a character list at a separator (model of `str.split`). -/
def splitCharAux (sep : Char) : List Char → List Char → List (List Char)
  | [], acc => [acc.reverse]
  | c :: rest, acc =>
    if c = sep then acc.reverse :: splitCharAux sep rest []
    else splitCharAux sep rest (c :: acc)

def splitChar (sep : Char) (l : List Char) : List (List Char) :=
  splitCharAux sep l []

/-- Value of a digit string. -/
def digitsVal (l : List Char) : Nat :=
  l.foldl (fun n c => n * 10 + (c.toNat - 48)) 0

/-- Digit-list to Nat, `none` when empty or non-numeric. -/
def parseDigitsL (l : List Char) : Option Nat :=
  if l ≠ [] ∧ l.all Char.isDigit then some (digitsVal l) else none

/-- Unsigned decimal literal to `ℚ`. -/
def parseNumPos (t : List Char) : Option ℚ :=
  match splitChar '.' t with
  | [w] => (parseDigitsL w).map (fun n => (n : ℚ))
  | [w, f] =>
    match parseDigitsL w, parseDigitsL f with
    | some wn, some fn => some ((wn : ℚ) + (fn : ℚ) / ((10 : ℚ) ^ f.length))
    | _, _ => none
  | _ => none

/-- Model of `float(...)` / `pd.to_numeric(..., errors="coerce")` on one
value: optionally signed decimal literal; `none` models NaN or a raised
`ValueError`. -/
def parseNum (s : String) : Option ℚ :=
  match trimChars s.data with
  | '-' :: rest => (parseNumPos rest).map (fun q => -q)
  | t => parseNumPos t

/-- Model of `str.replace(",", "")` used before numeric parses. -/
def stripCommas (s : String) : String := ⟨s.data.filter (fun c => c ≠ ',')⟩

/-- Model of day-first date parsing (`dd/mm/yyyy`), returning a
comparable ordinal; `none` models NaT / a raised parse error. -/
def parseDate (s : String) : Option Nat :=
  match splitChar '/' (trimChars s.data) with
  | [d, m, y] =>
    match parseDigitsL d, parseDigitsL m, parseDigitsL y with
    | some dn, some mn, some yn =>
      if 1 ≤ dn ∧ dn ≤ 31 ∧ 1 ≤ mn ∧ mn ≤ 12 then
        some (yn * 10000 + mn * 100 + dn)
      else none
    | _, _, _ => none
  | _ => none

/-- List prefix test used by the substring model. -/
def charsStartWith : List Char → List Char → Bool
  | _, [] => true
  | [], _ :: _ => false
  | a :: as, b :: bs => a = b && charsStartWith as bs

/-- List substring test used by the substring model. -/
def charsContain (hay needle : List Char) : Bool :=
  charsStartWith hay needle ||
    match hay with
    | [] => false
    | _ :: t => charsContain t needle

/-- Model of `series.str.contains(pat, case=False)` on one cell value. -/
def strContains (s pat : String) : Bool :=
  charsContain (lowerStr s).data (lowerStr pat).data

/-- A table row: association list from column name to cell value
(`none` models a pandas NaN cell). -/
abbrev Row := List (String × Option String)

/-- Cell access; a missing key behaves like NaN. -/
def getCell (r : Row) (c : String) : Option String :=
  (r.lookup c).join

/-- Column assignment restricted to one row (pandas `df[c] = v`). -/
def setCell (r : Row) (c : String) (v : Option String) : Row :=
  if (r.lookup c).isSome then
    r.map (fun p => if p.1 = c then (c, v) else p)
  else
    r ++ [(c, v)]

/-- A dataframe: named columns plus rows. -/
structure DF where
  cols : List String
  rows : List Row
deriving DecidableEq

def emptyDF : DF := ⟨[], []⟩

/-- pd.Series([False] * n). -/
def allFalse (n : Nat) : List Bool := List.replicate n false

/-- Elementwise conjunction of boolean masks (pandas `&=`). -/
def andMask (a b : List Bool) : List Bool := List.zipWith and a b

/-- Elementwise disjunction of boolean masks (pandas `|=`). -/
def orMask (a b : List Bool) : List Bool := List.zipWith or a b

/-- Elementwise negation of a boolean mask (pandas `~mask`). -/
def negMask (m : List Bool) : List Bool := m.map not

/-- Row selection by boolean mask (pandas `df[mask]`). -/
def applyMask (rows : List Row) (mask : List Bool) : List Row :=
  ((rows.zip mask).filter (fun p => p.2)).map (fun p => p.1)

/-- One condition of a rule group.  `thenAction` embeds the JSON field
named `then` (a keyword in Lean); `none` models an absent key. -/
structure Rule where
  column : String := ""
  operator : String := ""
  value : String := ""
  connector : Option String := none
  thenAction : Option String := none
deriving DecidableEq

/-- Model of `rule.get("connector", "AND").strip().upper()`. -/
def normConnector (c : Option String) : String :=
  normUpper (c.getD "AND")

/-- ApplyRule.build_condition (app/utils/apply_rule.py, lines 204-250).
A missing column yields an all-False mask; a failed `float(val)` or
`pd.to_datetime(val)` parse models the caught exception path, also an
all-False mask. -/
def build_condition (datatype_mapping : List (String × String)) (df : DF)
    (rule : Rule) : List Bool :=
  let col := strTrim rule.column
  let op := normLower rule.operator
  let val := rule.value
  if col ∈ df.cols then
    let col_dtype := lowerStr ((datatype_mapping.lookup col).getD "string")
    if op = "equal to" then
      if col_dtype = "string" ∨ col_dtype = "text" ∨ col_dtype = "varchar" then
        df.rows.map (fun r =>
          match getCell r col with
          | some s => lowerStr s == lowerStr val
          | none => false)
      else
        df.rows.map (fun r => getCell r col == some val)
    else if op = "not equal to" then
      if col_dtype = "string" ∨ col_dtype = "text" ∨ col_dtype = "varchar" then
        df.rows.map (fun r =>
          match getCell r col with
          | some s => !(lowerStr s == lowerStr val)
          | none => true)
      else
        df.rows.map (fun r => !(getCell r col == some val))
    else if op = "greater than" then
      if col_dtype = "date" ∨ col_dtype = "datetime" then
        match parseDate val with
        | none => allFalse df.rows.length
        | some v =>
          df.rows.map (fun r =>
            match (getCell r col).bind parseDate with
            | some d => decide (d > v)
            | none => false)
      else
        match parseNum val with
        | none => allFalse df.rows.length
        | some v =>
          df.rows.map (fun r =>
            match (getCell r col).bind parseNum with
            | some x => decide (x > v)
            | none => false)
    else if op = "less than" then
      if col_dtype = "date" ∨ col_dtype = "datetime" then
        match parseDate val with
        | none => allFalse df.rows.length
        | some v =>
          df.rows.map (fun r =>
            match (getCell r col).bind parseDate with
            | some d => decide (d < v)
            | none => false)
      else
        match parseNum val with
        | none => allFalse df.rows.length
        | some v =>
          df.rows.map (fun r =>
            match (getCell r col).bind parseNum with
            | some x => decide (x < v)
            | none => false)
    else if op = "includes" then
      df.rows.map (fun r =>
        match getCell r col with
        | some s => strContains s val
        | none => false)
    else
      allFalse df.rows.length
  else
    allFalse df.rows.length

/-- ApplyRule.build_mask (app/utils/apply_rule.py, lines 252-275): the
left fold combining each condition with the CURRENT rule's connector
(THEN and the default combine with AND, OR combines with OR). -/
def build_mask_step (datatype_mapping : List (String × String)) (df : DF)
    (mask : List Bool) (rule : Rule) : List Bool :=
  let condition := build_condition datatype_mapping df rule
  let connector := normConnector rule.connector
  if connector = "THEN" then andMask mask condition
  else if connector = "OR" then orMask mask condition
  else andMask mask condition

/-- ApplyRule.build_mask, the fold over the rule group. -/
def build_mask (datatype_mapping : List (String × String)) (df : DF)
    (rule_group : List Rule) : List Bool :=
  match rule_group with
  | [] => allFalse df.rows.length
  | r0 :: rest =>
    rest.foldl (build_mask_step datatype_mapping df)
      (build_condition datatype_mapping df r0)

/-- Equality branch of build_single_condition (views.py, lines
3743-3756): date comparison for date columns, otherwise numeric first
with a case-insensitive string fallback when `float(val)` raises. -/
def bsc_equal (df : DF) (col val col_dtype : String) : List Bool :=
  if col_dtype = "date" then
    match parseDate val with
    | none => allFalse df.rows.length
    | some v =>
      df.rows.map (fun r =>
        match (getCell r col).bind parseDate with
        | some d => d == v
        | none => false)
  else
    match parseNum val with
    | some v =>
      df.rows.map (fun r =>
        match ((getCell r col).map stripCommas).bind parseNum with
        | some x => x == v
        | none => false)
    | none =>
      df.rows.map (fun r =>
        match getCell r col with
        | some s => lowerStr s == lowerStr val
        | none => false)

/-- Inequality branch of build_single_condition (views.py, lines
3758-3769). -/
def bsc_not_equal (df : DF) (col val col_dtype : String) : List Bool :=
  if col_dtype = "date" then
    match parseDate val with
    | none => allFalse df.rows.length
    | some v =>
      df.rows.map (fun r =>
        match (getCell r col).bind parseDate with
        | some d => !(d == v)
        | none => true)
  else
    match parseNum val with
    | some v =>
      df.rows.map (fun r =>
        match ((getCell r col).map stripCommas).bind parseNum with
        | some x => !(x == v)
        | none => true)
    | none =>
      df.rows.map (fun r =>
        match getCell r col with
        | some s => !(lowerStr s == lowerStr val)
        | none => true)

/-- Ordering branches of build_single_condition (views.py, lines
3771-3805), parameterised by the date and numeric comparison of the
operator; a failed `float(val)` / date parse of the comparison value
models the caught exception, yielding all-False. -/
def bsc_cmp (cmpD : Nat → Nat → Bool) (cmpN : ℚ → ℚ → Bool)
    (df : DF) (col val col_dtype : String) : List Bool :=
  if col_dtype = "date" then
    match parseDate val with
    | none => allFalse df.rows.length
    | some v =>
      df.rows.map (fun r =>
        match (getCell r col).bind parseDate with
        | some d => cmpD d v
        | none => false)
  else
    match parseNum val with
    | none => allFalse df.rows.length
    | some v =>
      df.rows.map (fun r =>
        match ((getCell r col).map stripCommas).bind parseNum with
        | some x => cmpN x v
        | none => false)

/-- Substring branch of build_single_condition (views.py, lines
3807-3808): `str.contains(val, case=False, na=False)`. -/
def bsc_contains (df : DF) (col val : String) : List Bool :=
  df.rows.map (fun r =>
    match getCell r col with
    | some s => strContains s val
    | none => false)

/-- Negated substring branch of build_single_condition (views.py,
lines 3810-3811): `~str.contains(val, case=False, na=False)`. -/
def bsc_not_contains (df : DF) (col val : String) : List Bool :=
  df.rows.map (fun r =>
    match getCell r col with
    | some s => !(strContains s val)
    | none => true)

/-- build_single_condition
(app/blueprints/transaction_dataset/views.py, lines 3727-3819).
Equality operators try a numeric comparison first and fall back to a
case-insensitive string comparison when `float(val)` raises; ordering
operators have no fallback, the caught exception yields all-False. -/
def build_single_condition (datatype_mapping : List (String × String))
    (df : DF) (rule : Rule) : List Bool :=
  let col := strTrim rule.column
  let op := normLower rule.operator
  let val := rule.value
  if col ∈ df.cols then
    let col_dtype := lowerStr ((datatype_mapping.lookup col).getD "string")
    if op = "equal to" ∨ op = "equals" then
      bsc_equal df col val col_dtype
    else if op = "not equal to" then
      bsc_not_equal df col val col_dtype
    else if op = "greater than" then
      bsc_cmp (fun d v => decide (d > v)) (fun x v => decide (x > v)) df col val col_dtype
    else if op = "less than" then
      bsc_cmp (fun d v => decide (d < v)) (fun x v => decide (x < v)) df col val col_dtype
    else if op = "greater than or equal" then
      bsc_cmp (fun d v => decide (d ≥ v)) (fun x v => decide (x ≥ v)) df col val col_dtype
    else if op = "less than or equal" then
      bsc_cmp (fun d v => decide (d ≤ v)) (fun x v => decide (x ≤ v)) df col val col_dtype
    else if op = "contains" ∨ op = "includes" then
      bsc_contains df col val
    else if op = "not contains" then
      bsc_not_contains df col val
    else
      allFalse df.rows.length
  else
    allFalse df.rows.length

/-- build_condition_mask
(app/blueprints/transaction_dataset/views.py, lines 3698-3725): the
left fold combining each condition with the PREVIOUS rule's pending
connector (a pending OR combines with OR, anything else with AND). -/
def build_condition_mask_step (datatype_mapping : List (String × String))
    (df : DF) (acc : List Bool × Option String) (rule : Rule) :
    List Bool × Option String :=
  let condition := build_single_condition datatype_mapping df rule
  let connector := normConnector rule.connector
  let mask :=
    if acc.2 = some "OR" then orMask acc.1 condition
    else andMask acc.1 condition
  (mask, if connector = "THEN" then none else some connector)

/-- build_condition_mask, the fold over the rule group carrying the
pending connector. -/
def build_condition_mask (datatype_mapping : List (String × String))
    (df : DF) (rule_group : List Rule) : List Bool :=
  match rule_group with
  | [] => allFalse df.rows.length
  | r0 :: rest =>
    let mask0 := build_single_condition datatype_mapping df r0
    let conn0 := normConnector r0.connector
    let pending0 : Option String := if conn0 = "THEN" then none else some conn0
    (rest.foldl (build_condition_mask_step datatype_mapping df) (mask0, pending0)).1

/-- Extraction of a rule group's outcome action in
ApplyRule.apply_ejection_rules (apply_rule.py, lines 290-295): the last
condition's `then` field, defaulting to "reject". -/
def ejection_rule_type (rule_group : List Rule) : String :=
  match rule_group.getLast? with
  | some last => lowerStr (last.thenAction.getD "reject")
  | none => "reject"

/-- Extraction of a rule group's outcome action in
ApplyRule.apply_inclusion_rules (apply_rule.py, lines 370-375): the last
condition's `then` field, defaulting to "accept". -/
def inclusion_rule_type (rule_group : List Rule) : String :=
  match rule_group.getLast? with
  | some last => lowerStr (last.thenAction.getD "accept")
  | none => "accept"

/-- Extraction of a rule group's outcome action in
apply_complex_rules_to_file (views.py, lines 3611-3615): the last
condition's `then` field, defaulting to "reject". -/
def complex_rule_type (rule_group : List Rule) : String :=
  match rule_group.getLast? with
  | some last => lowerStr (last.thenAction.getD "reject")
  | none => "reject"

/-- ApplyRule.perform_ejection (apply_rule.py, lines 308-355).  Returns
(updated source, updated untagged, number of ejected rows).  With
action "accept" the rows failing the mask are ejected, otherwise the
rows matching the mask are ejected; ejected rows are stamped with a
`from_tag` column and appended to the untagged pool. -/
def perform_ejection (datatype_mapping : List (String × String))
    (source_df untagged_df : DF) (rule_group : List Rule)
    (source_tag : String) (rule_type : String) : DF × DF × Nat :=
  let mask := build_mask datatype_mapping source_df rule_group
  let sel :=
    if rule_type = "accept" then
      (applyMask source_df.rows (negMask mask), applyMask source_df.rows mask)
    else
      (applyMask source_df.rows mask, applyMask source_df.rows (negMask mask))
  let ejected_rows := sel.1.map (fun r => setCell r "from_tag" (some source_tag))
  let ejectedCols :=
    if "from_tag" ∈ source_df.cols then source_df.cols
    else source_df.cols ++ ["from_tag"]
  let untagged1 : DF :=
    if untagged_df.rows.isEmpty then ⟨ejectedCols, []⟩
    else if "from_tag" ∈ untagged_df.cols then untagged_df
    else ⟨untagged_df.cols ++ ["from_tag"],
          untagged_df.rows.map (fun r => setCell r "from_tag" (some ""))⟩
  (⟨source_df.cols, sel.2⟩,
   ⟨untagged1.cols, untagged1.rows ++ ejected_rows⟩,
   ejected_rows.length)

/-- The `from_tag` defaulting applied to included rows in
ApplyRule.perform_inclusion (apply_rule.py, lines 410-414): if the pool
has no `from_tag` column every included row is stamped "untagged"; if
every included row's `from_tag` is NaN those cells are stamped
"untagged"; otherwise the rows pass unchanged. -/
def inclusionStamp (untCols : List String) (sel : List Row) : List Row :=
  if "from_tag" ∉ untCols then
    sel.map (fun r => setCell r "from_tag" (some "untagged"))
  else if sel.all (fun r => getCell r "from_tag" = none) then
    sel.map (fun r =>
      if getCell r "from_tag" = none then setCell r "from_tag" (some "untagged") else r)
  else sel

/-- ApplyRule.perform_inclusion (apply_rule.py, lines 388-441).  Returns
(updated target, updated untagged, number of included rows).  With
action "accept" the untagged rows matching the mask are included into
the target, otherwise the untagged rows NOT matching the mask are
included. -/
def perform_inclusion (datatype_mapping : List (String × String))
    (target_df untagged_df : DF) (rule_group : List Rule)
    (target_tag_name target_tag_type : String) (rule_type : String) :
    DF × DF × Nat :=
  if untagged_df.rows.isEmpty then (target_df, untagged_df, 0)
  else
    let mask := build_mask datatype_mapping untagged_df rule_group
    let sel :=
      if rule_type = "accept" then
        (applyMask untagged_df.rows mask, applyMask untagged_df.rows (negMask mask))
      else
        (applyMask untagged_df.rows (negMask mask), applyMask untagged_df.rows mask)
    if sel.1.isEmpty then (target_df, untagged_df, 0)
    else
      let included_rows := inclusionStamp untagged_df.cols sel.1
      let inclCols :=
        if "from_tag" ∈ untagged_df.cols then untagged_df.cols
        else untagged_df.cols ++ ["from_tag"]
      let target1 : DF := if target_df.rows.isEmpty then ⟨inclCols, []⟩ else target_df
      let target2 : DF :=
        if "from_tag" ∈ target1.cols then target1
        else ⟨target1.cols ++ ["from_tag"],
              target1.rows.map (fun r => setCell r "from_tag" (some ""))⟩
      (⟨target2.cols, target2.rows ++ included_rows⟩,
       ⟨untagged_df.cols, sel.2⟩,
       included_rows.length)

/-- One entry of the rule payload: a tag plus its rule groups. -/
structure RuleEntry where
  tag_name : String := ""
  tag_type : String := ""
  rules : List (List Rule) := []
deriving DecidableEq

/-- The rule payload received by ApplyRule (`self.data`). -/
structure RuleData where
  ejection : List RuleEntry := []
  acception_rules_for_all_files : List RuleEntry := []
deriving DecidableEq

/-- The in-memory partition map `self.dfs`: partition key to dataframe. -/
abbrev Dfs := List (String × DF)

def untagged_key : String := "untagged_unknown"

def dlookup (dfs : Dfs) (k : String) : Option DF := dfs.lookup k

/-- Python dict assignment `dfs[k] = v`: replace in place or append. -/
def dupdate : Dfs → String → DF → Dfs
  | [], k, v => [(k, v)]
  | p :: rest, k, v => if p.1 = k then (k, v) :: rest else p :: dupdate rest k v

/-- Result entry recorded per processed rule group
(`ejection_results` / `inclusion_results`). -/
structure GroupOutcome where
  tag_name : String
  tag_type : String
  rule_type : String
  rule_group : List Rule
  count : Nat
deriving DecidableEq

/-- One iteration of the inner loop of ApplyRule.apply_ejection_rules
(apply_rule.py, lines 290-306): tuple assignment
`self.dfs[key], self.dfs[untagged_key], count = self.perform_ejection(...)`
modelled as two sequential dict updates. -/
def eject_one_group (datatype_mapping : List (String × String))
    (tag_name tag_type key : String) (acc : Dfs × List GroupOutcome)
    (rule_group : List Rule) : Dfs × List GroupOutcome :=
  let rule_type := ejection_rule_type rule_group
  let src := (dlookup acc.1 key).getD emptyDF
  let unt := (dlookup acc.1 untagged_key).getD emptyDF
  let out := perform_ejection datatype_mapping src unt rule_group tag_name rule_type
  let st := dupdate (dupdate acc.1 key out.1) untagged_key out.2.1
  (st, acc.2 ++ [⟨tag_name, tag_type, rule_type, rule_group, out.2.2⟩])

/-- One iteration of the outer loop of ApplyRule.apply_ejection_rules
(apply_rule.py, lines 281-306): an entry whose key is not loaded is
skipped. -/
def eject_entry_step (datatype_mapping : List (String × String))
    (acc : Dfs × List GroupOutcome) (entry : RuleEntry) : Dfs × List GroupOutcome :=
  let tag_name := normLower entry.tag_name
  let tag_type := normLower entry.tag_type
  let key := tag_name ++ "_" ++ tag_type
  match dlookup acc.1 key with
  | none => acc
  | some _ => entry.rules.foldl (eject_one_group datatype_mapping tag_name tag_type key) acc

/-- ApplyRule.apply_ejection_rules (apply_rule.py, lines 277-306). -/
def apply_ejection_rules (datatype_mapping : List (String × String))
    (data : RuleData) (st : Dfs) : Dfs × List GroupOutcome :=
  data.ejection.foldl (eject_entry_step datatype_mapping) (st, [])

/-- One iteration of the inner loop of ApplyRule.apply_inclusion_rules
(apply_rule.py, lines 370-386). -/
def include_one_group (datatype_mapping : List (String × String))
    (tag_name tag_type key : String) (acc : Dfs × List GroupOutcome)
    (rule_group : List Rule) : Dfs × List GroupOutcome :=
  let rule_type := inclusion_rule_type rule_group
  let tgt := (dlookup acc.1 key).getD emptyDF
  let unt := (dlookup acc.1 untagged_key).getD emptyDF
  let out := perform_inclusion datatype_mapping tgt unt rule_group tag_name tag_type rule_type
  let st := dupdate (dupdate acc.1 key out.1) untagged_key out.2.1
  (st, acc.2 ++ [⟨tag_name, tag_type, rule_type, rule_group, out.2.2⟩])

/-- One iteration of the outer loop of ApplyRule.apply_inclusion_rules
(apply_rule.py, lines 361-386): an entry whose key is not loaded gets a
fresh empty dataframe. -/
def include_entry_step (datatype_mapping : List (String × String))
    (acc : Dfs × List GroupOutcome) (entry : RuleEntry) : Dfs × List GroupOutcome :=
  let tag_name := normLower entry.tag_name
  let tag_type := normLower entry.tag_type
  let key := tag_name ++ "_" ++ tag_type
  let st1 := match dlookup acc.1 key with
    | none => dupdate acc.1 key emptyDF
    | some _ => acc.1
  entry.rules.foldl (include_one_group datatype_mapping tag_name tag_type key) (st1, acc.2)

/-- ApplyRule.apply_inclusion_rules (apply_rule.py, lines 357-386). -/
def apply_inclusion_rules (datatype_mapping : List (String × String))
    (data : RuleData) (st : Dfs) : Dfs × List GroupOutcome :=
  data.acception_rules_for_all_files.foldl (include_entry_step datatype_mapping) (st, [])

/-- The pure core of ApplyRule.apply_rules (apply_rule.py, lines
744-766): ejection rules run first, then inclusion rules on the
resulting state (persistence steps are I/O and outside the model). -/
def apply_rules_core (datatype_mapping : List (String × String))
    (data : RuleData) (st : Dfs) : Dfs × List GroupOutcome × List GroupOutcome :=
  let ej := apply_ejection_rules datatype_mapping data st
  let inc := apply_inclusion_rules datatype_mapping data ej.1
  (inc.1, ej.2, inc.2)

/-- Total number of rows over all partitions of the state. -/
def totalRows (st : Dfs) : Nat :=
  (st.map (fun p => p.2.rows.length)).sum

/-- Spec-contrast definition, NOT taken from the source: a hypothetical
inclusion step whose mask is computed against a fixed snapshot dataframe
instead of the current untagged pool.  Used only to show the source does
not implement snapshot semantics. -/
def perform_inclusion_snapshot (datatype_mapping : List (String × String))
    (snapshot : DF) (target_df untagged_df : DF) (rule_group : List Rule)
    (target_tag_name target_tag_type : String) (rule_type : String) :
    DF × DF × Nat :=
  if untagged_df.rows.isEmpty then (target_df, untagged_df, 0)
  else
    let mask := build_mask datatype_mapping snapshot rule_group
    let sel :=
      if rule_type = "accept" then
        (applyMask untagged_df.rows mask, applyMask untagged_df.rows (negMask mask))
      else
        (applyMask untagged_df.rows (negMask mask), applyMask untagged_df.rows mask)
    if sel.1.isEmpty then (target_df, untagged_df, 0)
    else
      let included_rows := inclusionStamp untagged_df.cols sel.1
      let inclCols :=
        if "from_tag" ∈ untagged_df.cols then untagged_df.cols
        else untagged_df.cols ++ ["from_tag"]
      let target1 : DF := if target_df.rows.isEmpty then ⟨inclCols, []⟩ else target_df
      let target2 : DF :=
        if "from_tag" ∈ target1.cols then target1
        else ⟨target1.cols ++ ["from_tag"],
              target1.rows.map (fun r => setCell r "from_tag" (some ""))⟩
      (⟨target2.cols, target2.rows ++ included_rows⟩,
       ⟨untagged_df.cols, sel.2⟩,
       included_rows.length)

/-- Spec-contrast inclusion phase evaluating every mask against the same
pre-ejection snapshot of the untagged pool. -/
def apply_inclusion_rules_snapshot (datatype_mapping : List (String × String))
    (data : RuleData) (snapshot : DF) (st : Dfs) : Dfs × List GroupOutcome :=
  data.acception_rules_for_all_files.foldl (fun acc entry =>
    let tag_name := normLower entry.tag_name
    let tag_type := normLower entry.tag_type
    let key := tag_name ++ "_" ++ tag_type
    let st1 := match dlookup acc.1 key with
      | none => dupdate acc.1 key emptyDF
      | some _ => acc.1
    entry.rules.foldl (fun acc rule_group =>
      let rule_type := inclusion_rule_type rule_group
      let tgt := (dlookup acc.1 key).getD emptyDF
      let unt := (dlookup acc.1 untagged_key).getD emptyDF
      let out := perform_inclusion_snapshot datatype_mapping snapshot tgt unt rule_group tag_name tag_type rule_type
      let st := dupdate (dupdate acc.1 key out.1) untagged_key out.2.1
      (st, acc.2 ++ [⟨tag_name, tag_type, rule_type, rule_group, out.2.2⟩]))
      (st1, acc.2))
    (st, [])

/-- Spec-contrast whole run with snapshot inclusion semantics. -/
def apply_rules_snapshot (datatype_mapping : List (String × String))
    (data : RuleData) (st : Dfs) : Dfs × List GroupOutcome × List GroupOutcome :=
  let snapshot := (dlookup st untagged_key).getD emptyDF
  let ej := apply_ejection_rules datatype_mapping data st
  let inc := apply_inclusion_rules_snapshot datatype_mapping data snapshot ej.1
  (inc.1, ej.2, inc.2)

/-- Result entry of one complex rule group
(apply_complex_rules_to_file, views.py, lines 3647-3653). -/
structure ComplexGroupResult where
  rule_group : List Rule
  rule_type : String
  rows_removed : Nat
  rows_remaining : Nat
deriving DecidableEq

/-- Cleanup in apply_complex_rules_to_file (views.py, lines 3597-3601):
the `then` key is deleted from every non-final rule of a group. -/
def cleanThen (rule_group : List Rule) : List Rule :=
  match rule_group.getLast? with
  | none => rule_group
  | some last => (rule_group.dropLast.map (fun r => { r with thenAction := none })) ++ [last]

/-- The pure core of apply_complex_rules_to_file (views.py, lines
3552-3696): each rule group keeps the matching rows (action "accept")
or drops them (action "reject"), cumulatively on the running dataframe;
file reads/writes and loan-amount statistics are outside the model. -/
def apply_complex_rules (datatype_mapping : List (String × String))
    (df : DF) (rules : List (List Rule)) : DF × List ComplexGroupResult :=
  rules.foldl (fun acc rule_group =>
    if rule_group.isEmpty then acc
    else
      let rule_group := cleanThen rule_group
      let mask := build_condition_mask datatype_mapping acc.1 rule_group
      let rule_type := complex_rule_type rule_group
      let kept :=
        if rule_type = "accept" then applyMask acc.1.rows mask
        else applyMask acc.1.rows (negMask mask)
      let removed :=
        if rule_type = "accept" then applyMask acc.1.rows (negMask mask)
        else applyMask acc.1.rows mask
      (⟨acc.1.cols, kept⟩,
       acc.2 ++ [⟨rule_group, rule_type, removed.length, kept.length⟩]))
    (df, [])

/-- A transaction rule-application version record (the fields of
`transaction_versions` documents relevant to the chain logic). -/
structure TVersion where
  vid : Nat
  parent_version_id : Option Nat := none
  root_version_id : Option Nat := none
  branch_level : Int := 0
  branch_number : Int := 0
deriving DecidableEq

/-- The `transaction_versions` collection. -/
abbrev Store := List TVersion

/-- Model of `get_version` / `find_one` by id. -/
def getVersion (store : Store) (i : Nat) : Option TVersion :=
  store.find? (fun v => v.vid == i)

/-- Model of `find_one` on `parent_version_id`. -/
def findChild (store : Store) (i : Nat) : Option TVersion :=
  store.find? (fun v => v.parent_version_id == some i)

/-- Model of `find` on `parent_version_id` (all children). -/
def childrenOf (store : Store) (i : Nat) : Store :=
  store.filter (fun v => v.parent_version_id == some i)

/-- Model of `update_one` by id (first matching record). -/
def updateFirst : Store → Nat → (TVersion → TVersion) → Store
  | [], _, _ => []
  | v :: rest, i, f => if v.vid = i then f v :: rest else v :: updateFirst rest i f

/-- Model of `delete_version` by id (first matching record). -/
def eraseVid : Store → Nat → Store
  | [], _ => []
  | v :: rest, i => if v.vid = i then rest else v :: eraseVid rest i

/-- The mutable state touched by apply_rule_to_existing_version: the
version collection plus the set of files on disk. -/
structure TransState where
  versions : Store
  files : List String
deriving DecidableEq

/-- apply_rule_to_existing_version (views.py, lines 3003-3135), state
effects only: the single-child check happens before any file is copied
or any record created; on success one file copy and one child version
record are appended. -/
def apply_rule_to_existing_version (st : TransState) (parent_version_id : Nat)
    (new_id : Nat) (new_file : String) : TransState × Except String Nat :=
  match getVersion st.versions parent_version_id with
  | none => (st, .error "Parent version not found")
  | some parent_version =>
    match findChild st.versions parent_version_id with
    | some _ =>
      (st, .error "This version already has a sub-version. Each version can only have one sub-version.")
    | none =>
      let branch_level := parent_version.branch_level + 1
      let root_version_id :=
        match parent_version.root_version_id with
        | some r => some r
        | none => some parent_version_id
      let branch_number := parent_version.branch_number + 1
      let st1 : TransState := { st with files := st.files ++ [new_file] }
      let v : TVersion :=
        ⟨new_id, some parent_version_id, root_version_id, branch_level, branch_number⟩
      ({ st1 with versions := st1.versions ++ [v] }, .ok new_id)

/-- update_descendant_branch_numbers (views.py, lines 3402-3423): walk
the child links from `current`, decrementing each branch_number by 1;
the while loop is modelled with fuel (the store size bounds any chain). -/
def update_descendant_branch_numbers (store : Store) (fuel : Nat) (current : Nat) : Store :=
  match fuel with
  | 0 => store
  | fuel + 1 =>
    let store1 := updateFirst store current
      (fun v => { v with branch_number := v.branch_number - 1 })
    match findChild store1 current with
    | some c => update_descendant_branch_numbers store1 fuel c.vid
    | none => store1

/-- update_descendants_root (views.py, lines 3449-3475): walk the child
links from `current`, pointing every descendant at the new root and
renumbering branch_level/branch_number to its level. -/
def update_descendants_root (store : Store) (fuel : Nat) (current new_root : Nat)
    (level : Int) : Store :=
  match fuel with
  | 0 => store
  | fuel + 1 =>
    match findChild store current with
    | some c =>
      let store1 := updateFirst store c.vid (fun v =>
        { v with root_version_id := some new_root,
                 branch_level := level + 1, branch_number := level + 1 })
      update_descendants_root store1 fuel c.vid new_root (level + 1)
    | none => store

/-- delete_sub_version with delete_children=false (views.py, lines
3282-3500, else-branch at 3372-3494): reject roots, reject nodes with
more than one child, otherwise splice the single child (if any) onto the
grandparent or promote it to a new root, renumber descendants, and
delete the node.  Returns the new store and root-version list. -/
def delete_sub_version_reconnect (store : Store) (rootList : List Nat)
    (version_id : Nat) : Except String (Store × List Nat) :=
  match getVersion store version_id with
  | none => .error "Version not found"
  | some version =>
    if version_id ∈ rootList then
      .error "Cannot delete root version using this endpoint. Use delete_rule_version instead."
    else
      let children := childrenOf store version_id
      if 1 < children.length then
        .error "Version has multiple children. Cannot maintain linear structure."
      else
        let next : Store × List Nat :=
          match children.head?, version.parent_version_id with
          | some child, some parent_id =>
            let store1 := updateFirst store child.vid (fun v =>
              { v with parent_version_id := some parent_id,
                       branch_level := version.branch_level - 1 })
            (update_descendant_branch_numbers store1 store1.length child.vid, rootList)
          | some child, none =>
            let store1 := updateFirst store child.vid (fun v =>
              { v with parent_version_id := none, root_version_id := some child.vid,
                       branch_level := 0, branch_number := 0 })
            let rootList1 := rootList ++ [child.vid]
            (update_descendants_root store1 store1.length child.vid child.vid 0, rootList1)
          | none, _ => (store, rootList)
        .ok (eraseVid next.1 version_id, next.2)

/-- Chain builder: a linear chain of versions with given first parent,
root id and starting branch_level/branch_number, each child one deeper. -/
def mkChainAuxD (parent : Option Nat) (rootId : Nat) (bl bn : Int) :
    List Nat → Store
  | [] => []
  | x :: xs => ⟨x, parent, some rootId, bl, bn⟩ :: mkChainAuxD (some x) rootId (bl + 1) (bn + 1) xs

/-- A well-formed rule-application chain as produced by the source's
create-root plus append-child endpoints: the head is the root (parent
none, numbering 0), every later version points at its predecessor with
numbering increasing by 1. -/
def mkChain : List Nat → Store
  | [] => []
  | r :: rest => mkChainAuxD none r 0 0 (r :: rest)

/-- One fragment of the add_column_with_rules payload (views.py, lines
341-614).  Option fields model absent JSON keys; `valueType` is read
both raw (scan/skip) and with default "static" (processing). -/
structure Frag where
  column_one : Option String := none
  column : Option String := none
  operator : String := ""
  value : Option String := none
  valueType : Option String := none
  connector : Option String := none
  isBoolean : Bool := false
  booleanValue : Option Bool := none
  boolean : Option Bool := none
deriving DecidableEq

/-- Python `a or b` on optional strings (None and "" are falsy). -/
def pyOr (a b : Option String) : Option String :=
  match a with
  | some s => if s = "" then b else some s
  | none => b

/-- Truthiness of `rule.get("column_one")`. -/
def hasColumnOne (f : Frag) : Bool :=
  match f.column_one with
  | some s => s ≠ ""
  | none => false

/-- Python `str(...)` of a bool. -/
def pyBoolStr (b : Bool) : String := if b then "True" else "False"

/-- The scan loop of add_column_with_rules (views.py, lines 417-424):
only the FIRST fragment of each inner array is inspected for the
boolean-outcome declaration; the last match wins. -/
def scan_step (acc : Bool × Option Bool) (rule_array : List Frag) : Bool × Option Bool :=
  match rule_array.head? with
  | none => acc
  | some rule =>
    if rule.isBoolean || (rule.valueType == some "static" && rule.booleanValue.isSome) then
      (true, some (match rule.booleanValue with
                   | some b => b
                   | none => rule.boolean.getD true))
    else acc

def scan_boolean (rules : List (List Frag)) : Bool × Option Bool :=
  rules.foldl scan_step (false, none)

/-- Values of one dataframe column. -/
abbrev CellVals := List (Option String)

/-- The second operand of a fragment: another column or a static value. -/
inductive Operand where
  | column (vals : CellVals)
  | static (v : Option String)
deriving DecidableEq

def colValues (df : DF) (c : String) : CellVals :=
  df.rows.map (fun r => getCell r c)

/-- pandas `df[c] = v` (scalar): add the column if missing, set every row. -/
def addColumnDF (df : DF) (c : String) (v : Option String) : DF :=
  ⟨if c ∈ df.cols then df.cols else df.cols ++ [c],
   df.rows.map (fun r => setCell r c v)⟩

/-- pandas `df[c] = series`. -/
def setColumnVals (df : DF) (c : String) (vals : CellVals) : DF :=
  ⟨if c ∈ df.cols then df.cols else df.cols ++ [c],
   List.zipWith (fun r v => setCell r c v) df.rows vals⟩

/-- pandas `df.loc[mask, c] = v` (scalar). -/
def setColumnMasked (df : DF) (c : String) (mask : List Bool) (v : Option String) : DF :=
  ⟨if c ∈ df.cols then df.cols else df.cols ++ [c],
   List.zipWith (fun r b => if b then setCell r c v else r) df.rows mask⟩

/-- pandas `df.loc[mask, c] = series[mask]`. -/
def setColumnMaskedVals (df : DF) (c : String) (mask : List Bool) (vals : CellVals) : DF :=
  ⟨if c ∈ df.cols then df.cols else df.cols ++ [c],
   List.zipWith (fun rb v => if rb.2 then setCell rb.1 c v else rb.1)
     (df.rows.zip mask) vals⟩

/-- The calculation operators of add_column_with_rules (views.py, line 480). -/
def calcOps : List String :=
  ["add", "subtract", "multiply", "divide", "modulo", "power"]

/-- The condition operators of add_column_with_rules (views.py, lines 481-482). -/
def condOps : List String :=
  ["equal", "equals", "not equal", "greater than", "less than",
   "greater than or equal", "less than or equal", "contains", "not contains"]

/-- The loop state of add_column_with_rules (views.py, lines 408-415):
the dataframe plus the pending condition mask, inferred datatype,
previous connector, processed-rule count and the calculation/condition
flags. -/
structure ColState where
  df : DF
  current_condition_mask : Option (List Bool) := none
  new_column_datatype : String := "text"
  prev_connector : Option String := none
  processed_count : Nat := 0
  has_calculation : Bool := false
  has_condition : Bool := false
deriving DecidableEq

/-- One iteration of the processing loop of add_column_with_rules
(views.py, lines 428-557), parameterised over the helper evaluators
apply_boolean_condition (`applyBC`) and apply_calculation (`applyCalc`),
whose numeric internals no claim depends on. -/
def process_rule (applyBC : CellVals → String → Operand → String → List Bool)
    (applyCalc : CellVals → String → Operand → CellVals)
    (dtypeMap : List (String × String)) (new_column_name : String)
    (final_boolean_value : Option Bool) (st : ColState) (rule_array : List Frag) :
    Except String ColState :=
  match rule_array.head? with
  | none => .ok st
  | some rule =>
    if rule.isBoolean ||
        (rule.valueType == some "static" && rule.booleanValue.isSome && !(hasColumnOne rule)) then
      .ok st
    else
      let column_one_opt := pyOr rule.column_one rule.column
      let operator := lowerStr rule.operator
      let value := rule.value
      let value_type := rule.valueType.getD "static"
      let connector0 := normUpper (rule.connector.getD "")
      let connector := if connector0 = "" then "FINAL" else connector0
      let column_one :=
        match column_one_opt with
        | some s => if lowerStr s == "column being created" then new_column_name else s
        | none => ""
      if column_one = new_column_name ∧ st.processed_count = 0 then
        .error "Cannot use column being created in the first rule"
      else if column_one ∉ st.df.cols then
        .error "Column not found in dataset"
      else
        let col1_values := colValues st.df column_one
        let col2E : Except String Operand :=
          if value_type = "column" then
            let vname :=
              match value with
              | some s => if lowerStr s == "column being created" then new_column_name else s
              | none => ""
            if vname = new_column_name ∧ st.processed_count = 0 then
              .error "Cannot use column being created as value in first rule"
            else if vname ∉ st.df.cols then
              .error "Column not found in dataset"
            else .ok (Operand.column (colValues st.df vname))
          else .ok (Operand.static value)
        match col2E with
        | .error e => .error e
        | .ok col2 =>
          let is_calculation_operator := operator ∈ calcOps
          let is_condition_operator := operator ∈ condOps
          let st := { st with
            has_calculation := st.has_calculation || is_calculation_operator,
            has_condition := st.has_condition || is_condition_operator,
            processed_count := st.processed_count + 1 }
          if connector = "THEN" ∧ is_condition_operator then
            let col_datatype := (dtypeMap.lookup column_one).getD "number"
            let condition_mask := applyBC col1_values operator col2 col_datatype
            let final_mask :=
              match st.current_condition_mask with
              | some m =>
                if st.prev_connector = some "OR" then orMask m condition_mask
                else andMask m condition_mask
              | none => condition_mask
            let bval := final_boolean_value.getD true
            let df1 := setColumnMasked st.df new_column_name final_mask (some (pyBoolStr bval))
            let df2 := setColumnMasked df1 new_column_name (negMask final_mask) (some (pyBoolStr (!bval)))
            .ok { st with df := df2, new_column_datatype := "boolean",
                          current_condition_mask := none, prev_connector := none }
          else if (connector = "AND" ∨ connector = "OR") ∧ is_condition_operator then
            let col_datatype := (dtypeMap.lookup column_one).getD "number"
            let condition_mask := applyBC col1_values operator col2 col_datatype
            let newmask :=
              match st.current_condition_mask with
              | none => condition_mask
              | some m =>
                if st.prev_connector = some "AND" then andMask m condition_mask
                else if st.prev_connector = some "OR" then orMask m condition_mask
                else m
            .ok { st with current_condition_mask := some newmask,
                          prev_connector := some connector }
          else
            let result := applyCalc col1_values operator col2
            let df1 :=
              match st.current_condition_mask with
              | some m => setColumnMaskedVals st.df new_column_name m result
              | none => setColumnVals st.df new_column_name result
            let st := { st with df := df1, new_column_datatype := "number" }
            if connector = "AND" ∨ connector = "OR" then
              .ok { st with prev_connector := some connector }
            else
              .ok { st with current_condition_mask := none, prev_connector := none }

/-- Final value normalisation of add_column_with_rules (views.py, lines
576-580): `astype(str)` then `'None'` replaced by the empty string. -/
def finalizeColumn (df : DF) (c : String) : DF :=
  setColumnVals df c ((colValues df c).map (fun v => some (v.getD "")))

/-- add_column_with_rules (views.py, lines 341-614), dataframe effects
only: initialise the new column to None, scan for a boolean-outcome
declaration, process each rule array (only its first fragment), apply a
trailing pending condition, then fail with the numeric-versus-boolean
validation error or return the finalised dataframe.  An `Except.error`
result models a 4xx response before the file is saved. -/
def add_column_with_rules (applyBC : CellVals → String → Operand → String → List Bool)
    (applyCalc : CellVals → String → Operand → CellVals)
    (dtypeMap : List (String × String)) (new_column_name : String)
    (rules : List (List Frag)) (df0 : DF) : Except String DF :=
  if new_column_name = "" ∨ rules.isEmpty then .error "Missing required fields"
  else
    let df := addColumnDF df0 new_column_name none
    let scan := scan_boolean rules
    let is_expecting_boolean := scan.1
    let final_boolean_value := scan.2
    match rules.foldlM
        (process_rule applyBC applyCalc dtypeMap new_column_name final_boolean_value)
        ({ df := df } : ColState) with
    | .error e => .error e
    | .ok st =>
      let st1 :=
        match st.current_condition_mask with
        | some m =>
          if is_expecting_boolean then
            let bval := final_boolean_value.getD true
            let df1 := setColumnMasked st.df new_column_name m (some (pyBoolStr bval))
            let df2 := setColumnMasked df1 new_column_name (negMask m) (some (pyBoolStr (!bval)))
            { st with df := df2, new_column_datatype := "boolean" }
          else st
        | none => st
      if is_expecting_boolean ∧ st1.has_calculation ∧ ¬ st1.has_condition then
        .error "Invalid rule configuration: Mathematical operations result in numeric values but boolean output is expected. Please add a condition to convert the numeric result to boolean."
      else
        .ok (finalizeColumn st1.df new_column_name)

instance {ε α : Type} [DecidableEq ε] [DecidableEq α] : DecidableEq (Except ε α) :=
  fun x y =>
    match x, y with
    | .ok a, .ok b =>
      if h : a = b then isTrue (by rw [h]) else isFalse (by intro hh; cases hh; exact h rfl)
    | .error a, .error b =>
      if h : a = b then isTrue (by rw [h]) else isFalse (by intro hh; cases hh; exact h rfl)
    | .ok _, .error _ => isFalse (by intro h; cases h)
    | .error _, .ok _ => isFalse (by intro h; cases h)

/-- The key an ejection/inclusion entry addresses in `self.dfs`. -/
def entryKey (e : RuleEntry) : String :=
  normLower e.tag_name ++ "_" ++ normLower e.tag_type

/-- A one-row dataframe with column `a = "x"` and a provenance column. -/
def exDfX : DF := ⟨["a", "from_tag"], [[("a", some "x"), ("from_tag", some "")]]⟩

def exR1 : Rule := ⟨"a", "equal to", "x", some "OR", none⟩

def exR2 : Rule := ⟨"a", "equal to", "y", some "AND", none⟩

def exR3 : Rule := ⟨"a", "equal to", "x", some "THEN", some "accept"⟩

/-- The three-condition rule group with connectors [OR, AND, THEN]. -/
def exGroup : List Rule := [exR1, exR2, exR3]

def exRejectX : Rule := ⟨"a", "equal to", "x", some "THEN", some "reject"⟩

def exAcceptX : Rule := ⟨"a", "equal to", "x", some "THEN", some "accept"⟩

/-- A rule condition whose `then` key is absent. -/
def exNoThen : Rule := ⟨"a", "equal to", "x", some "THEN", none⟩

/-- An ejection entry that targets the untagged/unknown pool itself. -/
def exC3Data : RuleData := ⟨[⟨"untagged", "unknown", [[exRejectX]]⟩], []⟩

def exC3St : Dfs := [(untagged_key, exDfX)]

/-- An inclusion entry whose only rule group lacks a `then` key. -/
def exC4Data : RuleData := ⟨[], [⟨"b", "t", [[exNoThen]]⟩]⟩

def exC4St : Dfs := [(untagged_key, exDfX)]

/-- Eject the x-row from tag a, then include it into tag b. -/
def exC7Data : RuleData := ⟨[⟨"a", "t", [[exRejectX]]⟩], [⟨"b", "t", [[exAcceptX]]⟩]⟩

def exC7St : Dfs := [("a_t", exDfX), (untagged_key, ⟨["a", "from_tag"], []⟩)]

/-- A root version with one child, for the chain witnesses. -/
def exC5Store : Store := [⟨1, none, some 1, 0, 0⟩, ⟨2, some 1, some 1, 1, 1⟩]

def exC5State : TransState := ⟨exC5Store, ["f1", "f2"]⟩

/-- A calculation fragment (`add`). -/
def exAddFrag : Frag := { column_one := some "a", operator := "add", value := some "1" }

/-- A boolean-outcome declaration fragment. -/
def exBoolFrag : Frag := { isBoolean := true, booleanValue := some true }

/-- A rule list with one calculation fragment and an isBoolean marker,
but no condition fragment. -/
def exC8Rules : List (List Frag) := [[exAddFrag], [exBoolFrag]]

def exDfA : DF := ⟨["a"], [[("a", some "2")]]⟩

/-- A condition naming a column absent from `exDfX`, with an
unparseable numeric literal. -/
def exRuleZ : Rule := ⟨"zz", "greater than", "pqr", none, none⟩

/-- A condition on a present column with an unparseable numeric
literal. -/
def exRuleBadNum : Rule := ⟨"a", "greater than", "pqr", none, none⟩

/-- A trivial stand-in for apply_boolean_condition in witnesses. -/
def dummyBC : CellVals → String → Operand → String → List Bool :=
  fun vs _ _ _ => vs.map (fun _ => false)

/-- A trivial stand-in for apply_calculation in witnesses. -/
def dummyCalc : CellVals → String → Operand → CellVals :=
  fun vs _ _ => vs

/-- Projection of an Except result to its success value. -/
def exceptOk? {ε α : Type} : Except ε α → Option α
  | .ok a => some a
  | .error _ => none

/-- The parent link carried past a chain segment: the segment's last id
when the segment is non-empty, the incoming parent otherwise. -/
def lastParent (p : Option Nat) (xs : List Nat) : Option Nat :=
  match xs.getLast? with
  | some x => some x
  | none => p

/-- Example version collection in which version 1 has two children: the
shape delete_sub_version reports as a structural invariant violation. -/
def exC6Store : Store :=
  [⟨1, none, some 1, 0, 0⟩, ⟨2, some 1, some 1, 1, 1⟩, ⟨3, some 1, some 1, 1, 1⟩]

theorem length_allFalse (n : Nat) : (allFalse n).length = n := by
  simp [allFalse]

theorem build_condition_length (dm : List (String × String)) (df : DF) (rule : Rule) :
    (build_condition dm df rule).length = df.rows.length := by
  unfold build_condition
  dsimp only
  (repeat' split) <;> simp [allFalse]

theorem bsc_equal_length (df : DF) (col val dt : String) :
    (bsc_equal df col val dt).length = df.rows.length := by
  unfold bsc_equal
  (repeat' split) <;> simp [allFalse]

theorem bsc_not_equal_length (df : DF) (col val dt : String) :
    (bsc_not_equal df col val dt).length = df.rows.length := by
  unfold bsc_not_equal
  (repeat' split) <;> simp [allFalse]

theorem bsc_cmp_length (cmpD : Nat → Nat → Bool) (cmpN : ℚ → ℚ → Bool)
    (df : DF) (col val dt : String) :
    (bsc_cmp cmpD cmpN df col val dt).length = df.rows.length := by
  unfold bsc_cmp
  (repeat' split) <;> simp [allFalse]

theorem build_single_condition_length (dm : List (String × String)) (df : DF) (rule : Rule) :
    (build_single_condition dm df rule).length = df.rows.length := by
  unfold build_single_condition
  dsimp only
  (repeat' split) <;>
    simp [allFalse, bsc_equal_length, bsc_not_equal_length, bsc_cmp_length,
      bsc_contains, bsc_not_contains]

theorem build_mask_step_length (dm : List (String × String)) (df : DF)
    (mask : List Bool) (rule : Rule) (h : mask.length = df.rows.length) :
    (build_mask_step dm df mask rule).length = df.rows.length := by
  have hc := build_condition_length dm df rule
  unfold build_mask_step
  dsimp only
  (repeat' split) <;> simp [andMask, orMask, h, hc]

theorem build_mask_length (dm : List (String × String)) (df : DF) (rg : List Rule) :
    (build_mask dm df rg).length = df.rows.length := by
  cases rg with
  | nil => simp [build_mask, allFalse]
  | cons r0 rest =>
    have h : ∀ (l : List Rule) (acc : List Bool), acc.length = df.rows.length →
        (l.foldl (build_mask_step dm df) acc).length = df.rows.length := by
      intro l
      induction l with
      | nil => intro acc hacc; simpa using hacc
      | cons r l ih =>
        intro acc hacc
        simpa using ih _ (build_mask_step_length dm df acc r hacc)
    simpa [build_mask] using h rest _ (build_condition_length dm df r0)

theorem applyMask_cons (r : Row) (rows : List Row) (b : Bool) (m : List Bool) :
    applyMask (r :: rows) (b :: m) =
      if b then r :: applyMask rows m else applyMask rows m := by
  cases b <;> simp [applyMask]

theorem applyMask_length_add (rows : List Row) (m : List Bool)
    (h : m.length = rows.length) :
    (applyMask rows m).length + (applyMask rows (negMask m)).length = rows.length := by
  induction rows generalizing m with
  | nil => simp [applyMask]
  | cons r rows ih =>
    cases m with
    | nil => simp at h
    | cons b m =>
      have hm : m.length = rows.length := by simpa using h
      cases b <;> simp [applyMask_cons, negMask, List.map] <;>
        have := ih m hm <;> simp [negMask] at this <;> omega

theorem applyMask_append_perm (rows : List Row) (m : List Bool)
    (h : m.length = rows.length) :
    (applyMask rows m ++ applyMask rows (negMask m)).Perm rows := by
  induction rows generalizing m with
  | nil => simp [applyMask]
  | cons r rows ih =>
    cases m with
    | nil => simp at h
    | cons b m =>
      have hm : m.length = rows.length := by simpa using h
      cases b with
      | true => simpa [applyMask_cons, negMask] using (ih m hm).cons r
      | false =>
        have h1 : (applyMask rows m ++ r :: applyMask rows (negMask m)).Perm
            (r :: (applyMask rows m ++ applyMask rows (negMask m))) := List.perm_middle
        simpa [applyMask_cons, negMask] using h1.trans ((ih m hm).cons r)

/-- Claim C1, counterexample: on the one-row dataset `exDfX` with the
three-condition group [c1 OR, c2 AND, c3 THEN] (c1, c3 true and c2
false on the row), the debt-sheet combinator `build_mask` yields
(c1 AND c2) AND c3 = False, not the claimed (c1 OR c2) AND c3 = True —
it combines with the current condition's connector, not the previous
one's. -/
theorem C1_counterexample :
    build_mask [] exDfX exGroup = [false] ∧
    andMask (orMask (build_condition [] exDfX exR1) (build_condition [] exDfX exR2))
      (build_condition [] exDfX exR3) = [true] ∧
    build_mask [] exDfX exGroup ≠
      andMask (orMask (build_condition [] exDfX exR1) (build_condition [] exDfX exR2))
        (build_condition [] exDfX exR3) := by
  decide

/-- Claim C1, amended: for three conditions with connectors
[OR, AND, THEN], the transaction engine's `build_condition_mask`
combines with the PREVIOUS condition's connector, giving
(c1 OR c2) AND c3, while the debt-sheet engine's `build_mask` combines
with the CURRENT condition's connector (THEN treated as AND), giving
(c1 AND c2) AND c3. -/
theorem C1_fold_connector_semantics (dm : List (String × String)) (df : DF)
    (r1 r2 r3 : Rule)
    (h1 : normConnector r1.connector = "OR")
    (h2 : normConnector r2.connector = "AND")
    (h3 : normConnector r3.connector = "THEN") :
    build_mask dm df [r1, r2, r3] =
      andMask (andMask (build_condition dm df r1) (build_condition dm df r2))
        (build_condition dm df r3) ∧
    build_condition_mask dm df [r1, r2, r3] =
      andMask (orMask (build_single_condition dm df r1) (build_single_condition dm df r2))
        (build_single_condition dm df r3) := by
  constructor
  · simp [build_mask, build_mask_step, h2, h3]
  · simp [build_condition_mask, build_condition_mask_step, h1, h2, h3]

/-- Witness for C1's amended theorem at the concrete dataset and rule
group of the counterexample. -/
theorem C1_fold_connector_semantics_witness :
    build_mask [] exDfX [exR1, exR2, exR3] =
      andMask (andMask (build_condition [] exDfX exR1) (build_condition [] exDfX exR2))
        (build_condition [] exDfX exR3) ∧
    build_condition_mask [] exDfX [exR1, exR2, exR3] =
      andMask (orMask (build_single_condition [] exDfX exR1) (build_single_condition [] exDfX exR2))
        (build_single_condition [] exDfX exR3) :=
  C1_fold_connector_semantics [] exDfX exR1 exR2 exR3 (by decide) (by decide) (by decide)

/-- Claim C4, counterexample: a non-empty inclusion rule group whose
last condition has no `then` key is processed by the debt-sheet
inclusion engine with action "accept", not the claimed default
"reject". -/
theorem C4_counterexample :
    (apply_inclusion_rules [] exC4Data exC4St).2.map (fun o => o.rule_type) = ["accept"] ∧
    (apply_inclusion_rules [] exC4Data exC4St).2.map (fun o => o.rule_type) ≠ ["reject"] := by
  decide

/-- Claim C4, amended: every engine reads the outcome action from the
last condition's `then` field (lower-cased), but the absent-field
default is "reject" only for the debt-sheet ejection engine and the
transaction complex engine; the debt-sheet inclusion engine defaults to
"accept". -/
theorem C4_rule_action_defaults (rule_group : List Rule) (last : Rule)
    (h : rule_group.getLast? = some last) :
    ejection_rule_type rule_group = lowerStr (last.thenAction.getD "reject") ∧
    complex_rule_type rule_group = lowerStr (last.thenAction.getD "reject") ∧
    inclusion_rule_type rule_group = lowerStr (last.thenAction.getD "accept") ∧
    (last.thenAction = none →
      ejection_rule_type rule_group = "reject" ∧
      complex_rule_type rule_group = "reject" ∧
      inclusion_rule_type rule_group = "accept") := by
  refine ⟨?_, ?_, ?_, ?_⟩
  · simp [ejection_rule_type, h]
  · simp [complex_rule_type, h]
  · simp [inclusion_rule_type, h]
  · intro h0
    refine ⟨?_, ?_, ?_⟩ <;>
      simp [ejection_rule_type, complex_rule_type, inclusion_rule_type, h, h0] <;> decide

/-- Witness for C4's amended theorem on a singleton group whose `then`
key is absent. -/
theorem C4_rule_action_defaults_witness :
    ejection_rule_type [exNoThen] = lowerStr (exNoThen.thenAction.getD "reject") ∧
    complex_rule_type [exNoThen] = lowerStr (exNoThen.thenAction.getD "reject") ∧
    inclusion_rule_type [exNoThen] = lowerStr (exNoThen.thenAction.getD "accept") ∧
    (exNoThen.thenAction = none →
      ejection_rule_type [exNoThen] = "reject" ∧
      complex_rule_type [exNoThen] = "reject" ∧
      inclusion_rule_type [exNoThen] = "accept") :=
  C4_rule_action_defaults [exNoThen] exNoThen (by decide)

/-- Claim C9: both single-condition evaluators always return a mask of
the dataset's row count (they are total functions, so no exception can
reach the caller); a condition naming an absent column yields the
all-False mask, and so does an ordering condition whose comparison
value fails the numeric parse (the caught-exception path). -/
theorem C9_condition_error_policy (dm : List (String × String)) (df : DF) (rule : Rule) :
    ((build_condition dm df rule).length = df.rows.length ∧
     (build_single_condition dm df rule).length = df.rows.length) ∧
    (strTrim rule.column ∉ df.cols →
      build_condition dm df rule = allFalse df.rows.length ∧
      build_single_condition dm df rule = allFalse df.rows.length) ∧
    (normLower rule.operator = "greater than" →
      lowerStr ((dm.lookup (strTrim rule.column)).getD "string") ≠ "date" →
      lowerStr ((dm.lookup (strTrim rule.column)).getD "string") ≠ "datetime" →
      parseNum rule.value = none →
      build_condition dm df rule = allFalse df.rows.length ∧
      build_single_condition dm df rule = allFalse df.rows.length) := by
  refine ⟨⟨build_condition_length dm df rule, build_single_condition_length dm df rule⟩, ?_, ?_⟩
  · intro h
    constructor
    · simp [build_condition, h]
    · simp [build_single_condition, h]
  · intro hop hd1 hd2 hval
    by_cases hc : strTrim rule.column ∈ df.cols
    · constructor
      · simp [build_condition, hc, hop, hd1, hd2, hval]
      · simp [build_single_condition, bsc_cmp, hc, hop, hd1, hval]
    · constructor
      · simp [build_condition, hc]
      · simp [build_single_condition, hc]

/-- Witness for C9 at a missing column and at an unparseable comparison
value. -/
theorem C9_condition_error_policy_witness :
    (build_condition [] exDfX exRuleZ = allFalse exDfX.rows.length ∧
     build_single_condition [] exDfX exRuleZ = allFalse exDfX.rows.length) ∧
    (build_condition [] exDfX exRuleBadNum = allFalse exDfX.rows.length ∧
     build_single_condition [] exDfX exRuleBadNum = allFalse exDfX.rows.length) :=
  ⟨(C9_condition_error_policy [] exDfX exRuleZ).2.1 (by decide),
   (C9_condition_error_policy [] exDfX exRuleBadNum).2.2 (by decide) (by decide)
     (by decide) (by decide)⟩

/-- Claim C2: the accept/reject asymmetry of the two row movers.  For
ejection, "reject" ejects exactly the rows matching the group mask and
"accept" exactly those not matching (the kept/ejected sets are the two
complementary mask filters, which together are a permutation of the
source rows).  For inclusion, "accept" includes exactly the untagged
rows matching the mask and "reject" exactly those NOT matching: reject
inverts the selection for inclusion but not for ejection. -/
theorem C2_accept_reject_complement (dm : List (String × String))
    (src unt tgt : DF) (rg : List Rule) (tag tn tt : String)
    (hu : unt.rows ≠ []) (hft : "from_tag" ∈ unt.cols) :
    ((perform_ejection dm src unt rg tag "reject").1 =
        ⟨src.cols, applyMask src.rows (negMask (build_mask dm src rg))⟩ ∧
     (perform_ejection dm src unt rg tag "reject").2.1 =
        ⟨unt.cols, unt.rows ++
          (applyMask src.rows (build_mask dm src rg)).map
            (fun r => setCell r "from_tag" (some tag))⟩) ∧
    ((perform_ejection dm src unt rg tag "accept").1 =
        ⟨src.cols, applyMask src.rows (build_mask dm src rg)⟩ ∧
     (perform_ejection dm src unt rg tag "accept").2.1 =
        ⟨unt.cols, unt.rows ++
          (applyMask src.rows (negMask (build_mask dm src rg))).map
            (fun r => setCell r "from_tag" (some tag))⟩) ∧
    (applyMask src.rows (build_mask dm src rg) ++
       applyMask src.rows (negMask (build_mask dm src rg))).Perm src.rows ∧
    (applyMask unt.rows (build_mask dm unt rg) ≠ [] → tgt.rows ≠ [] →
       "from_tag" ∈ tgt.cols →
       perform_inclusion dm tgt unt rg tn tt "accept" =
         (⟨tgt.cols, tgt.rows ++
             inclusionStamp unt.cols (applyMask unt.rows (build_mask dm unt rg))⟩,
          ⟨unt.cols, applyMask unt.rows (negMask (build_mask dm unt rg))⟩,
          (inclusionStamp unt.cols (applyMask unt.rows (build_mask dm unt rg))).length)) ∧
    (applyMask unt.rows (negMask (build_mask dm unt rg)) ≠ [] → tgt.rows ≠ [] →
       "from_tag" ∈ tgt.cols →
       perform_inclusion dm tgt unt rg tn tt "reject" =
         (⟨tgt.cols, tgt.rows ++
             inclusionStamp unt.cols (applyMask unt.rows (negMask (build_mask dm unt rg)))⟩,
          ⟨unt.cols, applyMask unt.rows (build_mask dm unt rg)⟩,
          (inclusionStamp unt.cols
            (applyMask unt.rows (negMask (build_mask dm unt rg)))).length)) := by
  have hue : unt.rows.isEmpty = false := by
    simp [List.isEmpty_iff, hu]
  refine ⟨⟨?_, ?_⟩, ⟨?_, ?_⟩, ?_, ?_, ?_⟩
  · simp [perform_ejection, hue, hft]
  · simp [perform_ejection, hue, hft]
  · simp [perform_ejection, hue, hft]
  · simp [perform_ejection, hue, hft]
  · exact applyMask_append_perm src.rows _ (build_mask_length dm src rg)
  · intro hsel htgt htft
    have hse : (applyMask unt.rows (build_mask dm unt rg)).isEmpty = false := by
      simp [List.isEmpty_iff, hsel]
    have hte : tgt.rows.isEmpty = false := by
      simp [List.isEmpty_iff, htgt]
    simp [perform_inclusion, hue, hse, hte, hft, htft]
  · intro hsel htgt htft
    have hse : (applyMask unt.rows (negMask (build_mask dm unt rg))).isEmpty = false := by
      simp [List.isEmpty_iff, hsel]
    have hte : tgt.rows.isEmpty = false := by
      simp [List.isEmpty_iff, htgt]
    simp [perform_inclusion, hue, hse, hte, hft, htft]

/-- Witness for C2 on the one-row dataset: the reject ejection moves
the matching row into the pool, and the accept inclusion pulls the
matching row out of the pool. -/
theorem C2_accept_reject_complement_witness :
    (perform_ejection [] exDfX exDfX [exRejectX] "a" "reject").2.1 =
      ⟨exDfX.cols, exDfX.rows ++
        (applyMask exDfX.rows (build_mask [] exDfX [exRejectX])).map
          (fun r => setCell r "from_tag" (some "a"))⟩ ∧
    perform_inclusion [] exDfX exDfX [exAcceptX] "b" "t" "accept" =
      (⟨exDfX.cols, exDfX.rows ++
          inclusionStamp exDfX.cols (applyMask exDfX.rows (build_mask [] exDfX [exAcceptX]))⟩,
       ⟨exDfX.cols, applyMask exDfX.rows (negMask (build_mask [] exDfX [exAcceptX]))⟩,
       (inclusionStamp exDfX.cols
         (applyMask exDfX.rows (build_mask [] exDfX [exAcceptX]))).length) :=
  ⟨(C2_accept_reject_complement [] exDfX exDfX exDfX [exRejectX] "a" "b" "t"
      (by decide) (by decide)).1.2,
   (C2_accept_reject_complement [] exDfX exDfX exDfX [exAcceptX] "a" "b" "t"
      (by decide) (by decide)).2.2.2.1 (by decide) (by decide) (by decide)⟩

theorem beq_false_of_ne {α : Type} [BEq α] [LawfulBEq α] {a b : α} (h : a ≠ b) :
    (a == b) = false := by
  cases e : a == b
  · rfl
  · exact absurd (eq_of_beq e) h

theorem totalRows_dupdate (st : Dfs) (k : String) (v : DF) :
    totalRows (dupdate st k v) + ((dlookup st k).getD emptyDF).rows.length =
      totalRows st + v.rows.length := by
  induction st with
  | nil => simp [dupdate, totalRows, dlookup, List.lookup, emptyDF]
  | cons p rest ih =>
    obtain ⟨pk, pv⟩ := p
    by_cases h : pk = k
    · subst h
      simp [dupdate, totalRows, dlookup, List.lookup]
      omega
    · have hk : (k == pk) = false := beq_false_of_ne (fun e => h e.symm)
      simp [dupdate, h, totalRows, dlookup, List.lookup, hk] at ih ⊢
      omega

theorem dlookup_dupdate_ne (st : Dfs) (k : String) (v : DF) (k' : String)
    (h : k' ≠ k) : dlookup (dupdate st k v) k' = dlookup st k' := by
  have hk : (k' == k) = false := beq_false_of_ne h
  induction st with
  | nil => simp [dupdate, dlookup, List.lookup, hk]
  | cons p rest ih =>
    obtain ⟨pk, pv⟩ := p
    by_cases hp : pk = k
    · subst hp
      simp [dupdate, dlookup, List.lookup, hk]
    · by_cases h2 : k' = pk
      · subst h2
        simp [dupdate, hp, dlookup, List.lookup]
      · have h3 : (k' == pk) = false := beq_false_of_ne h2
        simp [dupdate, hp, dlookup, List.lookup, h3] at ih ⊢
        exact ih

theorem inclusionStamp_length (c : List String) (sel : List Row) :
    (inclusionStamp c sel).length = sel.length := by
  unfold inclusionStamp
  split_ifs <;> simp

theorem perform_ejection_total (dm : List (String × String))
    (src unt : DF) (rg : List Rule) (tag rt : String) :
    (perform_ejection dm src unt rg tag rt).1.rows.length +
      (perform_ejection dm src unt rg tag rt).2.1.rows.length =
      src.rows.length + unt.rows.length := by
  have hm := build_mask_length dm src rg
  have hadd := applyMask_length_add src.rows _ hm
  unfold perform_ejection
  dsimp only
  split_ifs with h1 h2 h3 <;>
    simp_all [List.isEmpty_iff] <;> omega

theorem perform_inclusion_total (dm : List (String × String))
    (tgt unt : DF) (rg : List Rule) (tn tt rt : String) :
    (perform_inclusion dm tgt unt rg tn tt rt).1.rows.length +
      (perform_inclusion dm tgt unt rg tn tt rt).2.1.rows.length =
      tgt.rows.length + unt.rows.length := by
  have hm := build_mask_length dm unt rg
  have hadd := applyMask_length_add unt.rows _ hm
  unfold perform_inclusion
  dsimp only
  split_ifs <;>
    simp_all [List.isEmpty_iff, inclusionStamp_length] <;> omega

theorem eject_one_group_total (dm : List (String × String))
    (tn tt key : String) (h : key ≠ untagged_key)
    (acc : Dfs × List GroupOutcome) (rg : List Rule) :
    totalRows (eject_one_group dm tn tt key acc rg).1 = totalRows acc.1 := by
  unfold eject_one_group
  dsimp only
  have h1 := totalRows_dupdate acc.1 key
    (perform_ejection dm ((dlookup acc.1 key).getD emptyDF)
      ((dlookup acc.1 untagged_key).getD emptyDF) rg tn (ejection_rule_type rg)).1
  have h2 := totalRows_dupdate
    (dupdate acc.1 key
      (perform_ejection dm ((dlookup acc.1 key).getD emptyDF)
        ((dlookup acc.1 untagged_key).getD emptyDF) rg tn (ejection_rule_type rg)).1)
    untagged_key
    (perform_ejection dm ((dlookup acc.1 key).getD emptyDF)
      ((dlookup acc.1 untagged_key).getD emptyDF) rg tn (ejection_rule_type rg)).2.1
  rw [dlookup_dupdate_ne _ _ _ _ (Ne.symm h)] at h2
  have h4 := perform_ejection_total dm ((dlookup acc.1 key).getD emptyDF)
    ((dlookup acc.1 untagged_key).getD emptyDF) rg tn (ejection_rule_type rg)
  omega

theorem include_one_group_total (dm : List (String × String))
    (tn tt key : String) (h : key ≠ untagged_key)
    (acc : Dfs × List GroupOutcome) (rg : List Rule) :
    totalRows (include_one_group dm tn tt key acc rg).1 = totalRows acc.1 := by
  unfold include_one_group
  dsimp only
  have h1 := totalRows_dupdate acc.1 key
    (perform_inclusion dm ((dlookup acc.1 key).getD emptyDF)
      ((dlookup acc.1 untagged_key).getD emptyDF) rg tn tt (inclusion_rule_type rg)).1
  have h2 := totalRows_dupdate
    (dupdate acc.1 key
      (perform_inclusion dm ((dlookup acc.1 key).getD emptyDF)
        ((dlookup acc.1 untagged_key).getD emptyDF) rg tn tt (inclusion_rule_type rg)).1)
    untagged_key
    (perform_inclusion dm ((dlookup acc.1 key).getD emptyDF)
      ((dlookup acc.1 untagged_key).getD emptyDF) rg tn tt (inclusion_rule_type rg)).2.1
  rw [dlookup_dupdate_ne _ _ _ _ (Ne.symm h)] at h2
  have h4 := perform_inclusion_total dm ((dlookup acc.1 key).getD emptyDF)
    ((dlookup acc.1 untagged_key).getD emptyDF) rg tn tt (inclusion_rule_type rg)
  omega

theorem eject_groups_total (dm : List (String × String)) (tn tt key : String)
    (h : key ≠ untagged_key) (groups : List (List Rule)) :
    ∀ acc, totalRows ((groups.foldl (eject_one_group dm tn tt key) acc)).1 =
      totalRows acc.1 := by
  induction groups with
  | nil => intro acc; rfl
  | cons g gs ih =>
    intro acc
    rw [List.foldl_cons, ih, eject_one_group_total dm tn tt key h acc g]

theorem include_groups_total (dm : List (String × String)) (tn tt key : String)
    (h : key ≠ untagged_key) (groups : List (List Rule)) :
    ∀ acc, totalRows ((groups.foldl (include_one_group dm tn tt key) acc)).1 =
      totalRows acc.1 := by
  induction groups with
  | nil => intro acc; rfl
  | cons g gs ih =>
    intro acc
    rw [List.foldl_cons, ih, include_one_group_total dm tn tt key h acc g]

theorem eject_entry_step_total (dm : List (String × String)) (entry : RuleEntry)
    (h : entryKey entry ≠ untagged_key) (acc : Dfs × List GroupOutcome) :
    totalRows (eject_entry_step dm acc entry).1 = totalRows acc.1 := by
  unfold eject_entry_step
  dsimp only
  split
  · rfl
  · exact eject_groups_total dm _ _ _ h entry.rules acc

theorem include_entry_step_total (dm : List (String × String)) (entry : RuleEntry)
    (h : entryKey entry ≠ untagged_key) (acc : Dfs × List GroupOutcome) :
    totalRows (include_entry_step dm acc entry).1 = totalRows acc.1 := by
  unfold include_entry_step
  dsimp only
  split
  · rename_i hl
    have h0 := totalRows_dupdate acc.1
      (normLower entry.tag_name ++ "_" ++ normLower entry.tag_type) emptyDF
    rw [hl] at h0
    have h1 : totalRows (dupdate acc.1
        (normLower entry.tag_name ++ "_" ++ normLower entry.tag_type) emptyDF) =
        totalRows acc.1 := by
      simpa [emptyDF] using h0
    exact (include_groups_total dm (normLower entry.tag_name) (normLower entry.tag_type)
      (normLower entry.tag_name ++ "_" ++ normLower entry.tag_type) h entry.rules
      (dupdate acc.1 (normLower entry.tag_name ++ "_" ++ normLower entry.tag_type) emptyDF,
        acc.2)).trans h1
  · exact include_groups_total dm _ _ _ h entry.rules acc

theorem eject_entries_total (dm : List (String × String)) (entries : List RuleEntry)
    (h : ∀ e ∈ entries, entryKey e ≠ untagged_key) :
    ∀ acc, totalRows ((entries.foldl (eject_entry_step dm) acc)).1 = totalRows acc.1 := by
  induction entries with
  | nil => intro acc; rfl
  | cons e es ih =>
    intro acc
    rw [List.foldl_cons, ih (fun x hx => h x (List.mem_cons_of_mem e hx)),
      eject_entry_step_total dm e (h e (List.mem_cons_self e es)) acc]

theorem include_entries_total (dm : List (String × String)) (entries : List RuleEntry)
    (h : ∀ e ∈ entries, entryKey e ≠ untagged_key) :
    ∀ acc, totalRows ((entries.foldl (include_entry_step dm) acc)).1 = totalRows acc.1 := by
  induction entries with
  | nil => intro acc; rfl
  | cons e es ih =>
    intro acc
    rw [List.foldl_cons, ih (fun x hx => h x (List.mem_cons_of_mem e hx)),
      include_entry_step_total dm e (h e (List.mem_cons_self e es)) acc]

/-- Claim C3, counterexample: an ejection entry addressed at the
untagged/unknown pool itself makes the source and untagged dataframe
the same dict entry; the tuple assignment writes the shrunken source
first and then overwrites it with the grown pool, duplicating the
ejected row — the run starts with 1 row and ends with 2. -/
theorem C3_counterexample :
    totalRows exC3St = 1 ∧
    totalRows (apply_rules_core [] exC3Data exC3St).1 = 2 := by
  decide

/-- Claim C3, amended: whenever no ejection or inclusion entry targets
the untagged_unknown key itself, the total number of rows over all
partitions (the untagged pool included) is unchanged by a whole
apply_rules run — rows only move between partitions. -/
theorem C3_row_conservation (dm : List (String × String)) (data : RuleData) (st : Dfs)
    (he : ∀ e ∈ data.ejection, entryKey e ≠ untagged_key)
    (hi : ∀ e ∈ data.acception_rules_for_all_files, entryKey e ≠ untagged_key) :
    totalRows (apply_rules_core dm data st).1 = totalRows st := by
  have h1 := eject_entries_total dm data.ejection he (st, [])
  have h2 := include_entries_total dm data.acception_rules_for_all_files hi
    ((apply_ejection_rules dm data st).1, [])
  calc totalRows (apply_rules_core dm data st).1
      = totalRows (apply_inclusion_rules dm data (apply_ejection_rules dm data st).1).1 := rfl
    _ = totalRows (apply_ejection_rules dm data st).1 := h2
    _ = totalRows st := h1

/-- Witness for the amended C3 on the two-partition run that ejects the
x-row from tag a and includes it into tag b. -/
theorem C3_row_conservation_witness :
    totalRows (apply_rules_core [] exC7Data exC7St).1 = totalRows exC7St :=
  C3_row_conservation [] exC7Data exC7St
    (by intro e he; fin_cases he <;> decide)
    (by intro e he; fin_cases he <;> decide)

/-- Claim C7: apply_rules runs the whole ejection phase strictly before
the inclusion phase (the run is the composition of the two phases);
each inclusion step evaluates its mask against the untagged pool of the
state threaded through all prior steps (the fold passes the updated
state on, and each step reads the CURRENT untagged entry); and on a
concrete run the result differs from the hypothetical semantics whose
inclusion masks use a snapshot of the untagged pool taken before the
ejections — the row ejected from tag a is included into tag b, which a
pre-ejection snapshot would never select. -/
theorem C7_ejections_before_inclusions :
    (∀ (dm : List (String × String)) (data : RuleData) (st : Dfs),
      apply_rules_core dm data st =
        ((apply_inclusion_rules dm data (apply_ejection_rules dm data st).1).1,
         (apply_ejection_rules dm data st).2,
         (apply_inclusion_rules dm data (apply_ejection_rules dm data st).1).2)) ∧
    (∀ (dm : List (String × String)) (tn tt key : String)
       (acc : Dfs × List GroupOutcome) (g : List Rule) (gs : List (List Rule)),
      (g :: gs).foldl (include_one_group dm tn tt key) acc =
        gs.foldl (include_one_group dm tn tt key) (include_one_group dm tn tt key acc g)) ∧
    (∀ (dm : List (String × String)) (tn tt key : String)
       (acc : Dfs × List GroupOutcome) (g : List Rule),
      include_one_group dm tn tt key acc g =
        (dupdate (dupdate acc.1 key
            (perform_inclusion dm ((dlookup acc.1 key).getD emptyDF)
              ((dlookup acc.1 untagged_key).getD emptyDF) g tn tt
              (inclusion_rule_type g)).1)
          untagged_key
          (perform_inclusion dm ((dlookup acc.1 key).getD emptyDF)
            ((dlookup acc.1 untagged_key).getD emptyDF) g tn tt
            (inclusion_rule_type g)).2.1,
         acc.2 ++ [⟨tn, tt, inclusion_rule_type g, g,
            (perform_inclusion dm ((dlookup acc.1 key).getD emptyDF)
              ((dlookup acc.1 untagged_key).getD emptyDF) g tn tt
              (inclusion_rule_type g)).2.2⟩])) ∧
    (apply_rules_core [] exC7Data exC7St).1 ≠ (apply_rules_snapshot [] exC7Data exC7St).1 ∧
    dlookup (apply_rules_core [] exC7Data exC7St).1 "b_t" =
      some ⟨["a", "from_tag"], [[("a", some "x"), ("from_tag", some "a")]]⟩ := by
  exact ⟨fun dm data st => rfl, fun dm tn tt key acc g gs => rfl,
    fun dm tn tt key acc g => rfl, by decide, by decide⟩

theorem findChild_isSome_iff (s : Store) (i : Nat) :
    (findChild s i).isSome = true ↔ ∃ v ∈ s, v.parent_version_id = some i := by
  induction s with
  | nil => simp [findChild, List.find?]
  | cons v rest ih =>
    by_cases h : v.parent_version_id = some i
    · have hb : (v.parent_version_id == some i) = true := by simp [h]
      refine iff_of_true ?_ ⟨v, List.mem_cons_self v rest, h⟩
      simp [findChild, List.find?, hb]
    · have hb : (v.parent_version_id == some i) = false := beq_false_of_ne h
      have hskip : findChild (v :: rest) i = findChild rest i := by
        simp [findChild, List.find?, hb]
      rw [hskip, ih]
      constructor
      · rintro ⟨w, hw1, hw2⟩
        exact ⟨w, List.mem_cons_of_mem v hw1, hw2⟩
      · rintro ⟨w, hw1, hw2⟩
        rcases List.mem_cons.mp hw1 with he | hm
        · rw [he] at hw2
          exact absurd hw2 h
        · exact ⟨w, hm, hw2⟩

/-- Claim C5: appending a child under parent P fails with the
already-has-a-sub-version error exactly when some version already has
parent_version_id = P.id, and on that failure the state (files and
version records) is unchanged; otherwise exactly one child record is
appended, with parent_version_id = P.id, root_version_id = P's root (or
P itself when P has none), branch_level = P.branch_level + 1 and
branch_number = P.branch_number + 1, plus one copied file. -/
theorem C5_single_child_invariant (st : TransState) (pid nid : Nat) (f : String)
    (P : TVersion) (hP : getVersion st.versions pid = some P) :
    ((∃ c ∈ st.versions, c.parent_version_id = some pid) →
      apply_rule_to_existing_version st pid nid f =
        (st, .error "This version already has a sub-version. Each version can only have one sub-version.")) ∧
    (¬ (∃ c ∈ st.versions, c.parent_version_id = some pid) →
      apply_rule_to_existing_version st pid nid f =
        ({ versions := st.versions ++
             [⟨nid, some pid, some (P.root_version_id.getD pid),
               P.branch_level + 1, P.branch_number + 1⟩],
           files := st.files ++ [f] }, .ok nid)) := by
  constructor
  · intro h
    obtain ⟨c, hc⟩ := Option.isSome_iff_exists.mp ((findChild_isSome_iff _ _).mpr h)
    unfold apply_rule_to_existing_version
    rw [hP, hc]
  · intro h
    have h0 : findChild st.versions pid = none := by
      cases e : findChild st.versions pid with
      | none => rfl
      | some c => exact absurd ((findChild_isSome_iff _ _).mp (by rw [e]; rfl)) h
    unfold apply_rule_to_existing_version
    rw [hP, h0]
    cases hr : P.root_version_id <;> simp [hr]

/-- Witness for C5: on the two-version store, appending under the root
(which already has child 2) fails without changing the state, while
appending under the leaf creates exactly the expected record. -/
theorem C5_single_child_invariant_witness :
    apply_rule_to_existing_version exC5State 1 3 "f3" =
      (exC5State, .error "This version already has a sub-version. Each version can only have one sub-version.") ∧
    apply_rule_to_existing_version exC5State 2 3 "f3" =
      ({ versions := exC5State.versions ++
           [⟨3, some 2, some (((⟨2, some 1, some 1, 1, 1⟩ : TVersion).root_version_id).getD 2),
             (⟨2, some 1, some 1, 1, 1⟩ : TVersion).branch_level + 1,
             (⟨2, some 1, some 1, 1, 1⟩ : TVersion).branch_number + 1⟩],
         files := exC5State.files ++ ["f3"] }, .ok 3) :=
  ⟨(C5_single_child_invariant exC5State 1 3 "f3" ⟨1, none, some 1, 0, 0⟩ (by decide)).1
      ⟨⟨2, some 1, some 1, 1, 1⟩, by decide, by decide⟩,
   (C5_single_child_invariant exC5State 2 3 "f3" ⟨2, some 1, some 1, 1, 1⟩ (by decide)).2
      (by decide)⟩

/-- Claim C8: when the scan finds a boolean-outcome declaration, and
processing all fragments succeeds having seen at least one calculation
operator but no condition operator, add_column_with_rules fails with
the numeric-result-but-boolean-expected validation error; the error
return happens before the file save, so no column is persisted. -/
theorem C8_boolean_expected_validation
    (applyBC : CellVals → String → Operand → String → List Bool)
    (applyCalc : CellVals → String → Operand → CellVals)
    (dtypeMap : List (String × String)) (name : String)
    (rules : List (List Frag)) (df0 : DF) (st : ColState)
    (hname : ¬ name = "") (hrules : rules ≠ [])
    (hexp : (scan_boolean rules).1 = true)
    (hfold : rules.foldlM
        (process_rule applyBC applyCalc dtypeMap name (scan_boolean rules).2)
        ({ df := addColumnDF df0 name none } : ColState) = .ok st)
    (hcalc : st.has_calculation = true) (hcond : st.has_condition = false) :
    add_column_with_rules applyBC applyCalc dtypeMap name rules df0 =
      .error "Invalid rule configuration: Mathematical operations result in numeric values but boolean output is expected. Please add a condition to convert the numeric result to boolean." := by
  have hre : rules.isEmpty = false := by
    simp [List.isEmpty_iff, hrules]
  unfold add_column_with_rules
  rw [if_neg (by simp [hname, hre])]
  dsimp only
  rw [hfold]
  dsimp only
  cases hm : st.current_condition_mask with
  | none => simp [hexp, hcalc, hcond]
  | some m => simp [hexp, hcalc, hcond]

/-- Witness for C8: the add-fragment plus isBoolean-marker rule list on
the one-row dataset raises the validation error. -/
theorem C8_boolean_expected_validation_witness :
    add_column_with_rules dummyBC dummyCalc [] "n" exC8Rules exDfA =
      .error "Invalid rule configuration: Mathematical operations result in numeric values but boolean output is expected. Please add a condition to convert the numeric result to boolean." :=
  C8_boolean_expected_validation dummyBC dummyCalc [] "n" exC8Rules exDfA
    ⟨⟨["a", "n"], [[("a", some "2"), ("n", some "2")]]⟩, none, "number", none, 1, true, false⟩
    (by decide) (by decide) (by decide) (by decide) (by decide) (by decide)

theorem take1_headq {α : Type} (l : List α) : (l.take 1).head? = l.head? := by
  cases l <;> rfl

theorem process_rule_take1
    (applyBC : CellVals → String → Operand → String → List Bool)
    (applyCalc : CellVals → String → Operand → CellVals)
    (dtypeMap : List (String × String)) (name : String) (fbv : Option Bool)
    (st : ColState) (ra : List Frag) :
    process_rule applyBC applyCalc dtypeMap name fbv st (ra.take 1) =
      process_rule applyBC applyCalc dtypeMap name fbv st ra := by
  unfold process_rule
  rw [take1_headq]

theorem scan_step_take1 (acc : Bool × Option Bool) (ra : List Frag) :
    scan_step acc (ra.take 1) = scan_step acc ra := by
  unfold scan_step
  rw [take1_headq]

theorem scan_boolean_take1 (rules : List (List Frag)) :
    scan_boolean (rules.map (fun ra => ra.take 1)) = scan_boolean rules := by
  unfold scan_boolean
  rw [List.foldl_map]
  simp only [scan_step_take1]

theorem foldlM_process_take1
    (applyBC : CellVals → String → Operand → String → List Bool)
    (applyCalc : CellVals → String → Operand → CellVals)
    (dtypeMap : List (String × String)) (name : String) (fbv : Option Bool)
    (rules : List (List Frag)) :
    ∀ st : ColState,
      (rules.map (fun ra => ra.take 1)).foldlM
          (process_rule applyBC applyCalc dtypeMap name fbv) st =
        rules.foldlM (process_rule applyBC applyCalc dtypeMap name fbv) st := by
  induction rules with
  | nil => intro st; rfl
  | cons ra rs ih =>
    intro st
    cases h : process_rule applyBC applyCalc dtypeMap name fbv st ra with
    | error e =>
      simp only [List.map_cons, List.foldlM_cons, process_rule_take1, h]
      rfl
    | ok st' =>
      simp only [List.map_cons, List.foldlM_cons, process_rule_take1, h]
      exact ih st'

theorem isEmpty_map_take (rules : List (List Frag)) :
    (rules.map (fun ra => ra.take 1)).isEmpty = rules.isEmpty := by
  cases rules <;> rfl

/-- Claim C10: add_column_with_rules reads only the first fragment of
each inner rule array — both the boolean-declaration scan and the
processing loop inspect index 0 only — so truncating every inner array
to its first element never changes the result: all later fragments are
silently ignored. -/
theorem C10_only_first_fragment
    (applyBC : CellVals → String → Operand → String → List Bool)
    (applyCalc : CellVals → String → Operand → CellVals)
    (dtypeMap : List (String × String)) (name : String)
    (rules : List (List Frag)) (df0 : DF) :
    add_column_with_rules applyBC applyCalc dtypeMap name rules df0 =
      add_column_with_rules applyBC applyCalc dtypeMap name
        (rules.map (fun ra => ra.take 1)) df0 := by
  unfold add_column_with_rules
  dsimp only
  rw [isEmpty_map_take, scan_boolean_take1, foldlM_process_take1]

theorem getVersion_append_skip (S T : Store) (a : Nat)
    (h : ∀ v ∈ S, v.vid ≠ a) : getVersion (S ++ T) a = getVersion T a := by
  induction S with
  | nil => rfl
  | cons v rest ih =>
    have hb : (v.vid == a) = false := beq_false_of_ne (h v (List.mem_cons_self v rest))
    have h2 : getVersion ((v :: rest) ++ T) a = getVersion (rest ++ T) a := by
      simp [getVersion, List.find?, hb]
    rw [h2, ih (fun w hw => h w (List.mem_cons_of_mem v hw))]

theorem findChild_append_skip (S T : Store) (a : Nat)
    (h : ∀ v ∈ S, v.parent_version_id ≠ some a) :
    findChild (S ++ T) a = findChild T a := by
  induction S with
  | nil => rfl
  | cons v rest ih =>
    have hb : (v.parent_version_id == some a) = false :=
      beq_false_of_ne (h v (List.mem_cons_self v rest))
    have h2 : findChild ((v :: rest) ++ T) a = findChild (rest ++ T) a := by
      simp [findChild, List.find?, hb]
    rw [h2, ih (fun w hw => h w (List.mem_cons_of_mem v hw))]

theorem childrenOf_append_skip (S T : Store) (a : Nat)
    (h : ∀ v ∈ S, v.parent_version_id ≠ some a) :
    childrenOf (S ++ T) a = childrenOf T a := by
  unfold childrenOf
  rw [List.filter_append]
  have h1 : S.filter (fun v => v.parent_version_id == some a) = [] := by
    rw [List.filter_eq_nil]
    intro v hv
    simp [beq_false_of_ne (h v hv)]
  rw [h1, List.nil_append]

theorem childrenOf_eq_nil (T : Store) (a : Nat)
    (h : ∀ v ∈ T, v.parent_version_id ≠ some a) :
    childrenOf T a = [] := by
  unfold childrenOf
  rw [List.filter_eq_nil]
  intro v hv
  simp [beq_false_of_ne (h v hv)]

theorem updateFirst_append_skip (S T : Store) (a : Nat) (f : TVersion → TVersion)
    (h : ∀ v ∈ S, v.vid ≠ a) :
    updateFirst (S ++ T) a f = S ++ updateFirst T a f := by
  induction S with
  | nil => rfl
  | cons v rest ih =>
    have hv : ¬ v.vid = a := h v (List.mem_cons_self v rest)
    simp [updateFirst, hv, ih (fun w hw => h w (List.mem_cons_of_mem v hw))]

theorem eraseVid_append_skip (S T : Store) (a : Nat)
    (h : ∀ v ∈ S, v.vid ≠ a) :
    eraseVid (S ++ T) a = S ++ eraseVid T a := by
  induction S with
  | nil => rfl
  | cons v rest ih =>
    have hv : ¬ v.vid = a := h v (List.mem_cons_self v rest)
    simp [eraseVid, hv, ih (fun w hw => h w (List.mem_cons_of_mem v hw))]

theorem mkChainAuxD_vid_mem (xs : List Nat) :
    ∀ (p : Option Nat) (r : Nat) (bl bn : Int) (v : TVersion),
      v ∈ mkChainAuxD p r bl bn xs → v.vid ∈ xs := by
  induction xs with
  | nil => intro p r bl bn v hv; simp [mkChainAuxD] at hv
  | cons x xs ih =>
    intro p r bl bn v hv
    rcases List.mem_cons.mp hv with he | hm
    · rw [he]; exact List.mem_cons_self x xs
    · exact List.mem_cons_of_mem x (ih (some x) r (bl + 1) (bn + 1) v hm)

theorem mkChainAuxD_parent_mem (xs : List Nat) :
    ∀ (p : Option Nat) (r : Nat) (bl bn : Int) (v : TVersion),
      v ∈ mkChainAuxD p r bl bn xs →
      v.parent_version_id = p ∨ ∃ x ∈ xs, v.parent_version_id = some x := by
  induction xs with
  | nil => intro p r bl bn v hv; simp [mkChainAuxD] at hv
  | cons x xs ih =>
    intro p r bl bn v hv
    rcases List.mem_cons.mp hv with he | hm
    · rw [he]; exact Or.inl rfl
    · rcases ih (some x) r (bl + 1) (bn + 1) v hm with hp | ⟨y, hy1, hy2⟩
      · exact Or.inr ⟨x, List.mem_cons_self x xs, hp⟩
      · exact Or.inr ⟨y, List.mem_cons_of_mem x hy1, hy2⟩

theorem mkChainAuxD_map_vid (xs : List Nat) :
    ∀ (p : Option Nat) (r : Nat) (bl bn : Int),
      (mkChainAuxD p r bl bn xs).map (fun v => v.vid) = xs := by
  induction xs with
  | nil => intro p r bl bn; rfl
  | cons x xs ih =>
    intro p r bl bn
    simp [mkChainAuxD, ih (some x) r (bl + 1) (bn + 1)]

theorem mkChainAuxD_map_bn (xs : List Nat) :
    ∀ (p : Option Nat) (r : Nat) (bl bn : Int),
      (mkChainAuxD p r bl bn xs).map (fun v => v.branch_number) =
        (List.range xs.length).map (fun j => bn + Int.ofNat j) := by
  induction xs with
  | nil => intro p r bl bn; rfl
  | cons x xs ih =>
    intro p r bl bn
    show (⟨x, p, some r, bl, bn⟩ ::
        mkChainAuxD (some x) r (bl + 1) (bn + 1) xs).map
          (fun v => v.branch_number) = _
    rw [List.map_cons, ih (some x) r (bl + 1) (bn + 1), List.length_cons,
      List.range_succ_eq_map, List.map_cons, List.map_map]
    congr 1
    · simp
    · refine List.map_congr_left (fun j hj => ?_)
      simp only [Function.comp_apply, Int.ofNat_eq_natCast]
      push_cast
      ring

theorem mkChainAuxD_map_parent (xs : List Nat) :
    ∀ (x : Nat) (p : Option Nat) (r : Nat) (bl bn : Int),
      (mkChainAuxD p r bl bn (x :: xs)).map (fun v => v.parent_version_id) =
        p :: ((x :: xs).dropLast.map some) := by
  induction xs with
  | nil => intro x p r bl bn; rfl
  | cons y ys ih =>
    intro x p r bl bn
    show (⟨x, p, some r, bl, bn⟩ ::
        mkChainAuxD (some x) r (bl + 1) (bn + 1) (y :: ys)).map
          (fun v => v.parent_version_id) = _
    rw [List.map_cons, ih y (some x) r (bl + 1) (bn + 1)]
    simp

theorem lastParent_cons (p : Option Nat) (x : Nat) (xs : List Nat) :
    lastParent p (x :: xs) = lastParent (some x) xs := by
  unfold lastParent
  cases xs with
  | nil => rfl
  | cons y ys =>
    rw [List.getLast?_cons_cons]
    cases h : (y :: ys).getLast? with
    | some z => rfl
    | none => simp at h

theorem mkChainAuxD_append (xs ys : List Nat) :
    ∀ (p : Option Nat) (r : Nat) (bl bn : Int),
      mkChainAuxD p r bl bn (xs ++ ys) =
        mkChainAuxD p r bl bn xs ++
          mkChainAuxD (lastParent p xs) r (bl + xs.length) (bn + xs.length) ys := by
  induction xs with
  | nil => intro p r bl bn; simp [mkChainAuxD, lastParent]
  | cons x xs ih =>
    intro p r bl bn
    have harith1 : bl + (((x :: xs).length : Nat) : Int) = (bl + 1) + (xs.length : Int) := by
      rw [List.length_cons]; push_cast; ring
    have harith2 : bn + (((x :: xs).length : Nat) : Int) = (bn + 1) + (xs.length : Int) := by
      rw [List.length_cons]; push_cast; ring
    show (⟨x, p, some r, bl, bn⟩ ::
        mkChainAuxD (some x) r (bl + 1) (bn + 1) (xs ++ ys)) = _
    rw [ih (some x) r (bl + 1) (bn + 1), lastParent_cons, harith1, harith2]
    rfl

theorem mkChainAuxD_length (xs : List Nat) :
    ∀ (p : Option Nat) (r : Nat) (bl bn : Int),
      (mkChainAuxD p r bl bn xs).length = xs.length := by
  induction xs with
  | nil => intro p r bl bn; rfl
  | cons x xs ih =>
    intro p r bl bn
    simp [mkChainAuxD, ih (some x) r (bl + 1) (bn + 1)]

theorem lastParent_concat (p : Option Nat) (xs : List Nat) (y : Nat) :
    lastParent p (xs ++ [y]) = some y := by
  unfold lastParent
  rw [List.getLast?_concat]

theorem mkChainAuxD_map_parent_drop (xs : List Nat) (p : Option Nat) (r : Nat)
    (bl bn : Int) :
    (mkChainAuxD p r bl bn xs).map (fun v => v.parent_version_id) =
      (p :: xs.map some).dropLast := by
  cases xs with
  | nil => rfl
  | cons x xs' =>
    rw [mkChainAuxD_map_parent xs' x p r bl bn]
    rw [show ((p :: (x :: xs').map some).dropLast = p :: ((x :: xs').map some).dropLast)
      from rfl]
    rw [List.map_dropLast]

theorem range_ofNat_split (m n : Nat) :
    (List.range (m + (n + 1))).map Int.ofNat =
      ((List.range m).map fun j => (0 : Int) + Int.ofNat j) ++
        ((m : Int) ::
          ((List.range n).map fun j => ((m : Int) + 1) + Int.ofNat j)) := by
  rw [List.range_add, List.map_append, List.range_succ_eq_map, List.map_cons,
    List.map_cons, List.map_map, List.map_map]
  congr 1
  · refine List.map_congr_left fun j _ => ?_
    simp [Int.ofNat_eq_natCast]
  · congr 1
    refine List.map_congr_left fun j _ => ?_
    simp only [Function.comp_apply, Int.ofNat_eq_natCast]
    push_cast
    ring

theorem walk_dec (rest : List Nat) :
    ∀ (S : Store) (cv : TVersion) (r : Nat) (bl bn : Int) (fuel : Nat),
      rest.length < fuel →
      (cv.vid :: rest).Nodup →
      (∀ x ∈ cv.vid :: rest, cv.parent_version_id ≠ some x) →
      (∀ v ∈ S, v.vid ∉ cv.vid :: rest) →
      (∀ v ∈ S, ∀ x ∈ cv.vid :: rest, v.parent_version_id ≠ some x) →
      update_descendant_branch_numbers
          (S ++ cv :: mkChainAuxD (some cv.vid) r bl bn rest) fuel cv.vid =
        S ++ { cv with branch_number := cv.branch_number - 1 } ::
          mkChainAuxD (some cv.vid) r bl (bn - 1) rest := by
  induction rest with
  | nil =>
    intro S cv r bl bn fuel hfuel hnd hcp hSv hSp
    cases fuel with
    | zero => simp at hfuel
    | succ f =>
      have hS1 : ∀ v ∈ S, v.vid ≠ cv.vid := fun v hv h =>
        hSv v hv (by rw [h]; exact List.mem_cons_self _ _)
      have hcp0 : cv.parent_version_id ≠ some cv.vid :=
        hcp cv.vid (List.mem_cons_self _ _)
      simp only [mkChainAuxD]
      rw [update_descendant_branch_numbers]
      rw [updateFirst_append_skip S _ cv.vid _ hS1]
      have hup : updateFirst [cv] cv.vid
          (fun v => { v with branch_number := v.branch_number - 1 }) =
          [{ cv with branch_number := cv.branch_number - 1 }] := by
        simp [updateFirst]
      rw [hup]
      rw [findChild_append_skip S _ cv.vid
        (fun v hv => hSp v hv cv.vid (List.mem_cons_self _ _))]
      have hfc : findChild [{ cv with branch_number := cv.branch_number - 1 }]
          cv.vid = none := by
        simp [findChild, List.find?, beq_false_of_ne hcp0]
      rw [hfc]
  | cons y ys ih =>
    intro S cv r bl bn fuel hfuel hnd hcp hSv hSp
    cases fuel with
    | zero => simp at hfuel
    | succ f =>
      have hS1 : ∀ v ∈ S, v.vid ≠ cv.vid := fun v hv h =>
        hSv v hv (by rw [h]; exact List.mem_cons_self _ _)
      have hcp0 : cv.parent_version_id ≠ some cv.vid :=
        hcp cv.vid (List.mem_cons_self _ _)
      have hvy : cv.vid ∉ y :: ys := (List.nodup_cons.mp hnd).1
      simp only [mkChainAuxD]
      rw [update_descendant_branch_numbers]
      rw [updateFirst_append_skip S _ cv.vid _ hS1]
      have hup : updateFirst (cv :: (⟨y, some cv.vid, some r, bl, bn⟩ : TVersion) ::
          mkChainAuxD (some y) r (bl + 1) (bn + 1) ys) cv.vid
          (fun v => { v with branch_number := v.branch_number - 1 }) =
          { cv with branch_number := cv.branch_number - 1 } ::
            (⟨y, some cv.vid, some r, bl, bn⟩ : TVersion) ::
            mkChainAuxD (some y) r (bl + 1) (bn + 1) ys := by
        simp [updateFirst]
      rw [hup]
      rw [findChild_append_skip S _ cv.vid
        (fun v hv => hSp v hv cv.vid (List.mem_cons_self _ _))]
      have hfc : findChild ({ cv with branch_number := cv.branch_number - 1 } ::
          (⟨y, some cv.vid, some r, bl, bn⟩ : TVersion) ::
          mkChainAuxD (some y) r (bl + 1) (bn + 1) ys) cv.vid =
          some ⟨y, some cv.vid, some r, bl, bn⟩ := by
        simp [findChild, List.find?, beq_false_of_ne hcp0]
      rw [hfc]
      dsimp only
      have hf1 : ys.length < f := by
        simp only [List.length_cons] at hfuel
        omega
      have hf2 : (y :: ys).Nodup := hnd.of_cons
      have hf3 : ∀ x ∈ y :: ys, (some cv.vid : Option Nat) ≠ some x := by
        intro x hx h
        injection h with h
        exact hvy (by rw [h]; exact hx)
      have hf4 : ∀ v ∈ S ++ [{ cv with branch_number := cv.branch_number - 1 }],
          v.vid ∉ y :: ys := by
        intro v hv
        rcases List.mem_append.mp hv with h | h
        · exact fun hmem => hSv v h (List.mem_cons_of_mem _ hmem)
        · have hveq : v = { cv with branch_number := cv.branch_number - 1 } := by
            simpa using h
          rw [hveq]
          exact hvy
      have hf5 : ∀ v ∈ S ++ [{ cv with branch_number := cv.branch_number - 1 }],
          ∀ x ∈ y :: ys, v.parent_version_id ≠ some x := by
        intro v hv x hx
        rcases List.mem_append.mp hv with h | h
        · exact hSp v h x (List.mem_cons_of_mem _ hx)
        · have hveq : v = { cv with branch_number := cv.branch_number - 1 } := by
            simpa using h
          rw [hveq]
          exact hcp x (List.mem_cons_of_mem _ hx)
      have hrec := ih (S ++ [{ cv with branch_number := cv.branch_number - 1 }])
        ⟨y, some cv.vid, some r, bl, bn⟩ r (bl + 1) (bn + 1) f hf1 hf2 hf3 hf4 hf5
      simp only [List.append_assoc, List.singleton_append, add_sub_cancel_right] at hrec
      rw [hrec]
      simp [add_sub_cancel_right, sub_add_cancel_right]

theorem walk_root (rest : List Nat) :
    ∀ (S : Store) (cur r nr : Nat) (bl bn level : Int) (fuel : Nat),
      rest.length ≤ fuel →
      rest.Nodup →
      cur ∉ rest →
      (∀ v ∈ S, v.vid ∉ rest) →
      (∀ v ∈ S, ∀ x ∈ cur :: rest, v.parent_version_id ≠ some x) →
      update_descendants_root (S ++ mkChainAuxD (some cur) r bl bn rest)
          fuel cur nr level =
        S ++ mkChainAuxD (some cur) nr (level + 1) (level + 1) rest := by
  induction rest with
  | nil =>
    intro S cur r nr bl bn level fuel hfuel hnd hcur hSv hSp
    cases fuel with
    | zero =>
      simp only [mkChainAuxD]
      rw [update_descendants_root]
    | succ f =>
      simp only [mkChainAuxD, List.append_nil]
      rw [update_descendants_root]
      have hfc : findChild S cur = none := by
        have h0 := findChild_append_skip S [] cur
          (fun v hv => hSp v hv cur (List.mem_cons_self _ _))
        simpa using h0
      rw [hfc]
  | cons y ys ih =>
    intro S cur r nr bl bn level fuel hfuel hnd hcur hSv hSp
    cases fuel with
    | zero =>
      simp only [List.length_cons] at hfuel
      omega
    | succ f =>
      simp only [mkChainAuxD]
      rw [update_descendants_root]
      have hfc : findChild (S ++ (⟨y, some cur, some r, bl, bn⟩ : TVersion) ::
          mkChainAuxD (some y) r (bl + 1) (bn + 1) ys) cur =
          some ⟨y, some cur, some r, bl, bn⟩ := by
        rw [findChild_append_skip S _ cur
          (fun v hv => hSp v hv cur (List.mem_cons_self _ _))]
        simp [findChild, List.find?]
      rw [hfc]
      dsimp only
      have hS1 : ∀ v ∈ S, v.vid ≠ y := fun v hv h =>
        hSv v hv (by rw [h]; exact List.mem_cons_self _ _)
      rw [updateFirst_append_skip S _ y _ hS1]
      have hup : updateFirst ((⟨y, some cur, some r, bl, bn⟩ : TVersion) ::
          mkChainAuxD (some y) r (bl + 1) (bn + 1) ys) y
          (fun v => { v with root_version_id := some nr,
                             branch_level := level + 1,
                             branch_number := level + 1 }) =
          (⟨y, some cur, some nr, level + 1, level + 1⟩ : TVersion) ::
            mkChainAuxD (some y) r (bl + 1) (bn + 1) ys := by
        simp [updateFirst]
      rw [hup]
      have hf1 : ys.length ≤ f := by
        simp only [List.length_cons] at hfuel
        omega
      have hf2 : ys.Nodup := hnd.of_cons
      have hf3 : y ∉ ys := (List.nodup_cons.mp hnd).1
      have hf4 : ∀ v ∈ S ++ [(⟨y, some cur, some nr, level + 1, level + 1⟩ : TVersion)],
          v.vid ∉ ys := by
        intro v hv
        rcases List.mem_append.mp hv with h | h
        · exact fun hmem => hSv v h (List.mem_cons_of_mem _ hmem)
        · have hveq : v = (⟨y, some cur, some nr, level + 1, level + 1⟩ : TVersion) := by
            simpa using h
          rw [hveq]
          exact hf3
      have hf5 : ∀ v ∈ S ++ [(⟨y, some cur, some nr, level + 1, level + 1⟩ : TVersion)],
          ∀ x ∈ y :: ys, v.parent_version_id ≠ some x := by
        intro v hv x hx
        rcases List.mem_append.mp hv with h | h
        · exact hSp v h x (List.mem_cons_of_mem _ hx)
        · have hveq : v = (⟨y, some cur, some nr, level + 1, level + 1⟩ : TVersion) := by
            simpa using h
          rw [hveq]
          intro hcontra
          injection hcontra with hcontra
          exact hcur (by rw [hcontra]; exact hx)
      have hrec := ih (S ++ [(⟨y, some cur, some nr, level + 1, level + 1⟩ : TVersion)])
        y r nr (bl + 1) (bn + 1) (level + 1) f hf1 hf2 hf3 hf4 hf5
      simp only [List.append_assoc, List.singleton_append] at hrec
      exact hrec

theorem delete_multi_children_error (store : Store) (rootList : List Nat)
    (vid : Nat) (v : TVersion) (hv : getVersion store vid = some v)
    (hroot : vid ∉ rootList) (hch : 1 < (childrenOf store vid).length) :
    delete_sub_version_reconnect store rootList vid =
      .error "Version has multiple children. Cannot maintain linear structure." := by
  unfold delete_sub_version_reconnect
  rw [hv]
  dsimp only
  rw [if_neg hroot, if_pos hch]

theorem delete_promote (a b : Nat) (rest2 : List Nat) (rootList : List Nat)
    (hnd : (a :: b :: rest2).Nodup) (ha : a ∉ rootList) :
    delete_sub_version_reconnect (mkChain (a :: b :: rest2)) rootList a =
      .ok (mkChain (b :: rest2), rootList ++ [b]) := by
  have hnda : a ∉ b :: rest2 := (List.nodup_cons.mp hnd).1
  have hndb : b ∉ rest2 := (List.nodup_cons.mp hnd.of_cons).1
  have hnd2 : rest2.Nodup := (List.nodup_cons.mp hnd.of_cons).2
  have hab : a ≠ b := fun h => hnda (by rw [h]; exact List.mem_cons_self _ _)
  have harest : a ∉ rest2 := fun h => hnda (List.mem_cons_of_mem _ h)
  have hstore : mkChain (a :: b :: rest2) =
      (⟨a, none, some a, 0, 0⟩ : TVersion) ::
        (⟨b, some a, some a, 1, 1⟩ : TVersion) ::
        mkChainAuxD (some b) a 2 2 rest2 := rfl
  rw [hstore]
  unfold delete_sub_version_reconnect
  have hgv : getVersion ((⟨a, none, some a, 0, 0⟩ : TVersion) ::
      (⟨b, some a, some a, 1, 1⟩ : TVersion) ::
      mkChainAuxD (some b) a 2 2 rest2) a = some ⟨a, none, some a, 0, 0⟩ := by
    simp [getVersion, List.find?]
  rw [hgv]
  dsimp only
  rw [if_neg ha]
  have hnil : childrenOf (mkChainAuxD (some b) a 2 2 rest2) a = [] := by
    apply childrenOf_eq_nil
    intro v hv hcontra
    rcases mkChainAuxD_parent_mem rest2 (some b) a 2 2 v hv with h | ⟨x, hx1, hx2⟩
    · rw [h] at hcontra
      exact hab (Option.some.inj hcontra).symm
    · rw [hx2] at hcontra
      exact harest ((Option.some.inj hcontra) ▸ hx1)
  have hch : childrenOf ((⟨a, none, some a, 0, 0⟩ : TVersion) ::
      (⟨b, some a, some a, 1, 1⟩ : TVersion) ::
      mkChainAuxD (some b) a 2 2 rest2) a = [⟨b, some a, some a, 1, 1⟩] := by
    simp only [childrenOf] at hnil ⊢
    simp [List.filter_cons, hnil, show ((none : Option Nat) == some a) = false from rfl]
  rw [hch]
  have hlen : ¬ (1 < (([(⟨b, some a, some a, 1, 1⟩ : TVersion)] : Store).length)) := by
    simp
  rw [if_neg hlen]
  simp only [List.head?]
  have hup : updateFirst ((⟨a, none, some a, 0, 0⟩ : TVersion) ::
      (⟨b, some a, some a, 1, 1⟩ : TVersion) ::
      mkChainAuxD (some b) a 2 2 rest2) b
      (fun v => { v with parent_version_id := none, root_version_id := some b,
                         branch_level := 0, branch_number := 0 }) =
      (⟨a, none, some a, 0, 0⟩ : TVersion) ::
        (⟨b, none, some b, 0, 0⟩ : TVersion) ::
        mkChainAuxD (some b) a 2 2 rest2 := by
    simp [updateFirst, hab]
  rw [hup]
  have hfuel : rest2.length ≤ ((⟨a, none, some a, 0, 0⟩ : TVersion) ::
      (⟨b, none, some b, 0, 0⟩ : TVersion) ::
      mkChainAuxD (some b) a 2 2 rest2).length := by
    simp [mkChainAuxD_length]
    omega
  have hv : ∀ v ∈ ([⟨a, none, some a, 0, 0⟩,
      ⟨b, none, some b, 0, 0⟩] : Store), v.vid ∉ rest2 := by
    intro v hv
    rcases List.mem_cons.mp hv with h | h
    · rw [h]; exact harest
    · have hveq : v = (⟨b, none, some b, 0, 0⟩ : TVersion) := by simpa using h
      rw [hveq]; exact hndb
  have hp : ∀ v ∈ ([⟨a, none, some a, 0, 0⟩,
      ⟨b, none, some b, 0, 0⟩] : Store), ∀ x ∈ b :: rest2,
      v.parent_version_id ≠ some x := by
    intro v hv x hx hcontra
    rcases List.mem_cons.mp hv with h | h
    · rw [h] at hcontra; exact Option.noConfusion hcontra
    · have hveq : v = (⟨b, none, some b, 0, 0⟩ : TVersion) := by simpa using h
      rw [hveq] at hcontra; exact Option.noConfusion hcontra
  have hwr := walk_root rest2 [⟨a, none, some a, 0, 0⟩, ⟨b, none, some b, 0, 0⟩]
    b a b 2 2 0 (((⟨a, none, some a, 0, 0⟩ : TVersion) ::
      (⟨b, none, some b, 0, 0⟩ : TVersion) ::
      mkChainAuxD (some b) a 2 2 rest2).length) hfuel hnd2 hndb hv hp
  simp only [List.cons_append, List.nil_append, zero_add] at hwr
  rw [hwr]
  have her : eraseVid ((⟨a, none, some a, 0, 0⟩ : TVersion) ::
      (⟨b, none, some b, 0, 0⟩ : TVersion) ::
      mkChainAuxD (some b) b 1 1 rest2) a =
      (⟨b, none, some b, 0, 0⟩ : TVersion) :: mkChainAuxD (some b) b 1 1 rest2 := by
    simp [eraseVid]
  rw [her]
  rfl

theorem cons_map_dropLast_concat (pre₀ : List Nat) (P : Nat) :
    ((none : Option Nat) :: ((pre₀ ++ [P]).map some)).dropLast =
      none :: pre₀.map some := by
  rw [List.map_append]
  rw [show ((none : Option Nat) :: (pre₀.map some ++ [P].map some)) =
      ((none : Option Nat) :: pre₀.map some) ++ [some P] by simp]
  rw [List.dropLast_concat]

theorem delete_splice_projection (pre : List Nat) (a : Nat) (rest : List Nat)
    (rootList : List Nat) (hpre : pre ≠ [])
    (hnd : (pre ++ a :: rest).Nodup) (ha : a ∉ rootList) :
    (exceptOk? (delete_sub_version_reconnect (mkChain (pre ++ a :: rest))
        rootList a)).map
        (fun q => (q.1.map (fun w => w.vid), q.1.map (fun w => w.branch_number),
                   q.1.map (fun w => w.parent_version_id), q.2)) =
      some (pre ++ rest,
            (List.range (pre.length + rest.length)).map Int.ofNat,
            none :: ((pre ++ rest).dropLast.map some),
            rootList) := by
  rcases List.eq_nil_or_concat pre with h | ⟨pre₀, P, hP⟩
  · exact absurd h hpre
  subst hP
  simp only [List.concat_eq_append] at hnd ⊢
  obtain ⟨h0, t0, hht⟩ := List.exists_cons_of_ne_nil
    (show (pre₀ ++ [P]) ++ a :: rest ≠ [] by simp)
  have hchain : mkChain ((pre₀ ++ [P]) ++ a :: rest) =
      mkChainAuxD none h0 0 0 ((pre₀ ++ [P]) ++ a :: rest) := by
    rw [hht]
    rfl
  rw [hchain, mkChainAuxD_append (pre₀ ++ [P]) (a :: rest) none h0 0 0,
    lastParent_concat]
  simp only [zero_add]
  have hndL : (pre₀ ++ [P]).Nodup := hnd.of_append_left
  have hndR : (a :: rest).Nodup := hnd.of_append_right
  have hdisj : List.Disjoint (pre₀ ++ [P]) (a :: rest) :=
    List.disjoint_of_nodup_append hnd
  have hPmem : P ∈ pre₀ ++ [P] := by simp
  have hPa : P ≠ a := fun h => hdisj hPmem (by rw [h]; exact List.mem_cons_self _ _)
  have hSv : ∀ v ∈ mkChainAuxD none h0 0 0 (pre₀ ++ [P]), v.vid ∉ a :: rest := by
    intro v hv hmem
    exact hdisj (mkChainAuxD_vid_mem (pre₀ ++ [P]) none h0 0 0 v hv) hmem
  have hSva : ∀ v ∈ mkChainAuxD none h0 0 0 (pre₀ ++ [P]), v.vid ≠ a := by
    intro v hv h
    exact hSv v hv (by rw [h]; exact List.mem_cons_self _ _)
  have hSp : ∀ v ∈ mkChainAuxD none h0 0 0 (pre₀ ++ [P]), ∀ x ∈ a :: rest,
      v.parent_version_id ≠ some x := by
    intro v hv x hx hcontra
    rcases mkChainAuxD_parent_mem (pre₀ ++ [P]) none h0 0 0 v hv with h | ⟨y, hy1, hy2⟩
    · rw [h] at hcontra; exact Option.noConfusion hcontra
    · rw [hy2] at hcontra
      exact hdisj ((Option.some.inj hcontra) ▸ hy1) hx
  cases rest with
  | nil =>
    simp only [mkChainAuxD]
    unfold delete_sub_version_reconnect
    have hgv : getVersion (mkChainAuxD none h0 0 0 (pre₀ ++ [P]) ++
        [(⟨a, some P, some h0, ((pre₀ ++ [P]).length : Int),
          ((pre₀ ++ [P]).length : Int)⟩ : TVersion)]) a =
        some ⟨a, some P, some h0, ((pre₀ ++ [P]).length : Int),
          ((pre₀ ++ [P]).length : Int)⟩ := by
      rw [getVersion_append_skip _ _ _ hSva]
      simp [getVersion, List.find?]
    rw [hgv]
    dsimp only
    rw [if_neg ha]
    have hch : childrenOf (mkChainAuxD none h0 0 0 (pre₀ ++ [P]) ++
        [(⟨a, some P, some h0, ((pre₀ ++ [P]).length : Int),
          ((pre₀ ++ [P]).length : Int)⟩ : TVersion)]) a = [] := by
      rw [childrenOf_append_skip _ _ _
        (fun v hv => hSp v hv a (List.mem_cons_self _ _))]
      apply childrenOf_eq_nil
      intro v hv hcontra
      have hveq : v = (⟨a, some P, some h0, ((pre₀ ++ [P]).length : Int),
          ((pre₀ ++ [P]).length : Int)⟩ : TVersion) := by simpa using hv
      rw [hveq] at hcontra
      exact hPa (Option.some.inj hcontra)
    rw [hch]
    rw [if_neg (show ¬ (1 < ([] : Store).length) by simp)]
    simp only [List.head?]
    have her : eraseVid (mkChainAuxD none h0 0 0 (pre₀ ++ [P]) ++
        [(⟨a, some P, some h0, ((pre₀ ++ [P]).length : Int),
          ((pre₀ ++ [P]).length : Int)⟩ : TVersion)]) a =
        mkChainAuxD none h0 0 0 (pre₀ ++ [P]) := by
      rw [eraseVid_append_skip _ _ _ hSva]
      simp [eraseVid]
    rw [her]
    simp only [exceptOk?, Option.map_some', Option.some.injEq, Prod.mk.injEq]
    refine ⟨?_, ?_, ?_, by trivial⟩
    · simp [mkChainAuxD_map_vid]
    · simp [mkChainAuxD_map_bn]
    · rw [mkChainAuxD_map_parent_drop, cons_map_dropLast_concat]
      simp [List.dropLast_concat]
  | cons b rest2 =>
    have hnda2 : a ∉ b :: rest2 := (List.nodup_cons.mp hndR).1
    have hab2 : a ≠ b := fun h => hnda2 (by rw [h]; exact List.mem_cons_self _ _)
    have harest2 : a ∉ rest2 := fun h => hnda2 (List.mem_cons_of_mem _ h)
    simp only [mkChainAuxD]
    unfold delete_sub_version_reconnect
    have hgv : getVersion (mkChainAuxD none h0 0 0 (pre₀ ++ [P]) ++
        (⟨a, some P, some h0, ((pre₀ ++ [P]).length : Int),
          ((pre₀ ++ [P]).length : Int)⟩ : TVersion) ::
        (⟨b, some a, some h0, ((pre₀ ++ [P]).length : Int) + 1,
          ((pre₀ ++ [P]).length : Int) + 1⟩ : TVersion) ::
        mkChainAuxD (some b) h0 (((pre₀ ++ [P]).length : Int) + 1 + 1)
          (((pre₀ ++ [P]).length : Int) + 1 + 1) rest2) a =
        some ⟨a, some P, some h0, ((pre₀ ++ [P]).length : Int),
          ((pre₀ ++ [P]).length : Int)⟩ := by
      rw [getVersion_append_skip _ _ _ hSva]
      simp [getVersion, List.find?]
    rw [hgv]
    dsimp only
    rw [if_neg ha]
    have hnil : ∀ (bl bn : Int),
        List.filter (fun v => v.parent_version_id == some a)
          (mkChainAuxD (some b) h0 bl bn rest2) = [] := by
      intro bl bn
      have h1 : childrenOf (mkChainAuxD (some b) h0 bl bn rest2) a = [] := by
        apply childrenOf_eq_nil
        intro v hv hcontra
        rcases mkChainAuxD_parent_mem rest2 (some b) h0 bl bn v hv with h | ⟨x, hx1, hx2⟩
        · rw [h] at hcontra
          exact hab2 (Option.some.inj hcontra).symm
        · rw [hx2] at hcontra
          exact harest2 ((Option.some.inj hcontra) ▸ hx1)
      simpa only [childrenOf] using h1
    have hch : childrenOf (mkChainAuxD none h0 0 0 (pre₀ ++ [P]) ++
        (⟨a, some P, some h0, ((pre₀ ++ [P]).length : Int),
          ((pre₀ ++ [P]).length : Int)⟩ : TVersion) ::
        (⟨b, some a, some h0, ((pre₀ ++ [P]).length : Int) + 1,
          ((pre₀ ++ [P]).length : Int) + 1⟩ : TVersion) ::
        mkChainAuxD (some b) h0 (((pre₀ ++ [P]).length : Int) + 1 + 1)
          (((pre₀ ++ [P]).length : Int) + 1 + 1) rest2) a =
        [⟨b, some a, some h0, ((pre₀ ++ [P]).length : Int) + 1,
          ((pre₀ ++ [P]).length : Int) + 1⟩] := by
      rw [childrenOf_append_skip _ _ _
        (fun v hv => hSp v hv a (List.mem_cons_self _ _))]
      simp only [childrenOf]
      simp [List.filter_cons, hnil,
        beq_false_of_ne (show (some P : Option Nat) ≠ some a from
          fun h => hPa (Option.some.inj h))]
    rw [hch]
    rw [if_neg (show ¬ (1 < ([(⟨b, some a, some h0,
        ((pre₀ ++ [P]).length : Int) + 1,
        ((pre₀ ++ [P]).length : Int) + 1⟩ : TVersion)] : Store).length) by simp)]
    simp only [List.head?]
    have hSvb : ∀ v ∈ mkChainAuxD none h0 0 0 (pre₀ ++ [P]), v.vid ≠ b := by
      intro v hv h
      exact hSv v hv (by rw [h]; exact List.mem_cons_of_mem _ (List.mem_cons_self _ _))
    have hup : updateFirst (mkChainAuxD none h0 0 0 (pre₀ ++ [P]) ++
        (⟨a, some P, some h0, ((pre₀ ++ [P]).length : Int),
          ((pre₀ ++ [P]).length : Int)⟩ : TVersion) ::
        (⟨b, some a, some h0, ((pre₀ ++ [P]).length : Int) + 1,
          ((pre₀ ++ [P]).length : Int) + 1⟩ : TVersion) ::
        mkChainAuxD (some b) h0 (((pre₀ ++ [P]).length : Int) + 1 + 1)
          (((pre₀ ++ [P]).length : Int) + 1 + 1) rest2) b
        (fun v => { v with parent_version_id := some P,
                           branch_level := ((pre₀ ++ [P]).length : Int) - 1 }) =
        mkChainAuxD none h0 0 0 (pre₀ ++ [P]) ++
        (⟨a, some P, some h0, ((pre₀ ++ [P]).length : Int),
          ((pre₀ ++ [P]).length : Int)⟩ : TVersion) ::
        (⟨b, some P, some h0, ((pre₀ ++ [P]).length : Int) - 1,
          ((pre₀ ++ [P]).length : Int) + 1⟩ : TVersion) ::
        mkChainAuxD (some b) h0 (((pre₀ ++ [P]).length : Int) + 1 + 1)
          (((pre₀ ++ [P]).length : Int) + 1 + 1) rest2 := by
      rw [updateFirst_append_skip _ _ _ _ hSvb]
      simp [updateFirst, hab2]
    rw [hup]
    have hw1 : rest2.length < (mkChainAuxD none h0 0 0 (pre₀ ++ [P]) ++
        (⟨a, some P, some h0, ((pre₀ ++ [P]).length : Int),
          ((pre₀ ++ [P]).length : Int)⟩ : TVersion) ::
        (⟨b, some P, some h0, ((pre₀ ++ [P]).length : Int) - 1,
          ((pre₀ ++ [P]).length : Int) + 1⟩ : TVersion) ::
        mkChainAuxD (some b) h0 (((pre₀ ++ [P]).length : Int) + 1 + 1)
          (((pre₀ ++ [P]).length : Int) + 1 + 1) rest2).length := by
      simp [mkChainAuxD_length]
      omega
    have hw2 : (b :: rest2).Nodup := hndR.of_cons
    have hw3 : ∀ x ∈ b :: rest2, (some P : Option Nat) ≠ some x := by
      intro x hx h
      injection h with h
      exact hdisj hPmem (List.mem_cons_of_mem _ (by rw [h]; exact hx))
    have hw4 : ∀ v ∈ mkChainAuxD none h0 0 0 (pre₀ ++ [P]) ++
        [(⟨a, some P, some h0, ((pre₀ ++ [P]).length : Int),
          ((pre₀ ++ [P]).length : Int)⟩ : TVersion)], v.vid ∉ b :: rest2 := by
      intro v hv
      rcases List.mem_append.mp hv with h | h
      · exact fun hmem => hSv v h (List.mem_cons_of_mem _ hmem)
      · have hveq : v = (⟨a, some P, some h0, ((pre₀ ++ [P]).length : Int),
            ((pre₀ ++ [P]).length : Int)⟩ : TVersion) := by simpa using h
        rw [hveq]
        exact hnda2
    have hw5 : ∀ v ∈ mkChainAuxD none h0 0 0 (pre₀ ++ [P]) ++
        [(⟨a, some P, some h0, ((pre₀ ++ [P]).length : Int),
          ((pre₀ ++ [P]).length : Int)⟩ : TVersion)],
        ∀ x ∈ b :: rest2, v.parent_version_id ≠ some x := by
      intro v hv x hx
      rcases List.mem_append.mp hv with h | h
      · exact hSp v h x (List.mem_cons_of_mem _ hx)
      · have hveq : v = (⟨a, some P, some h0, ((pre₀ ++ [P]).length : Int),
            ((pre₀ ++ [P]).length : Int)⟩ : TVersion) := by simpa using h
        rw [hveq]
        exact hw3 x hx
    have hwd := walk_dec rest2
      (mkChainAuxD none h0 0 0 (pre₀ ++ [P]) ++
        [(⟨a, some P, some h0, ((pre₀ ++ [P]).length : Int),
          ((pre₀ ++ [P]).length : Int)⟩ : TVersion)])
      ⟨b, some P, some h0, ((pre₀ ++ [P]).length : Int) - 1,
        ((pre₀ ++ [P]).length : Int) + 1⟩
      h0 (((pre₀ ++ [P]).length : Int) + 1 + 1)
      (((pre₀ ++ [P]).length : Int) + 1 + 1)
      ((mkChainAuxD none h0 0 0 (pre₀ ++ [P]) ++
        (⟨a, some P, some h0, ((pre₀ ++ [P]).length : Int),
          ((pre₀ ++ [P]).length : Int)⟩ : TVersion) ::
        (⟨b, some P, some h0, ((pre₀ ++ [P]).length : Int) - 1,
          ((pre₀ ++ [P]).length : Int) + 1⟩ : TVersion) ::
        mkChainAuxD (some b) h0 (((pre₀ ++ [P]).length : Int) + 1 + 1)
          (((pre₀ ++ [P]).length : Int) + 1 + 1) rest2).length)
      hw1 hw2 hw3 hw4 hw5
    simp only [List.append_assoc, List.singleton_append] at hwd
    rw [hwd]
    have her : eraseVid (mkChainAuxD none h0 0 0 (pre₀ ++ [P]) ++
        (⟨a, some P, some h0, ((pre₀ ++ [P]).length : Int),
          ((pre₀ ++ [P]).length : Int)⟩ : TVersion) ::
        (⟨b, some P, some h0, ((pre₀ ++ [P]).length : Int) - 1,
          ((pre₀ ++ [P]).length : Int) + 1 - 1⟩ : TVersion) ::
        mkChainAuxD (some b) h0 (((pre₀ ++ [P]).length : Int) + 1 + 1)
          (((pre₀ ++ [P]).length : Int) + 1 + 1 - 1) rest2) a =
        mkChainAuxD none h0 0 0 (pre₀ ++ [P]) ++
        (⟨b, some P, some h0, ((pre₀ ++ [P]).length : Int) - 1,
          ((pre₀ ++ [P]).length : Int) + 1 - 1⟩ : TVersion) ::
        mkChainAuxD (some b) h0 (((pre₀ ++ [P]).length : Int) + 1 + 1)
          (((pre₀ ++ [P]).length : Int) + 1 + 1 - 1) rest2 := by
      rw [eraseVid_append_skip _ _ _ hSva]
      simp [eraseVid]
    rw [her]
    simp only [exceptOk?, Option.map_some', Option.some.injEq, Prod.mk.injEq]
    refine ⟨?_, ?_, ?_, by trivial⟩
    · simp [mkChainAuxD_map_vid]
    · simp only [List.map_append, List.map_cons, mkChainAuxD_map_bn,
        add_sub_cancel_right]
      rw [List.length_cons]
      rw [range_ofNat_split (pre₀ ++ [P]).length rest2.length]
    · simp only [List.map_append, List.map_cons, mkChainAuxD_map_parent_drop,
        cons_map_dropLast_concat]
      rw [List.dropLast_append_of_ne_nil _ (List.cons_ne_nil b rest2)]
      rw [show ((none : Option Nat) :: (List.map some pre₀ ++
          some P :: List.map some ([] : List Nat))) =
          ((none : Option Nat) :: List.map some pre₀) ++ [some P] by simp]
      rw [List.dropLast_concat]
      rw [show (some b :: List.map some rest2 : List (Option Nat)) =
          List.map some (b :: rest2) by simp]
      rw [← List.map_dropLast]
      simp

/-- Claim C6: deleting a single non-root node N with delete_children=false.
(1) If N has more than one child, delete_sub_version fails with the
structural-invariant error and deletes nothing.  (2) On a linear chain,
deleting an interior node N re-parents N's child to N's parent and
decrements every descendant's branch_number by exactly one: the surviving
store lists exactly the other versions in order, its branch_numbers are
0, 1, 2, ... (root at 0, increasing by exactly 1 from parent to child),
and each node's parent is its predecessor (none for the head).  (3) When
N has no parent, its single child is promoted to a new root with parent
none, branch_number 0 and branch_level 0, the descendants are renumbered
from the new root (again decrementing each branch_number by one along the
chain), and the child is appended to the root-version list. -/
theorem C6_delete_reconnect_renumber
    (store : Store) (rootList rl2 rl3 : List Nat) (vid : Nat) (v : TVersion)
    (p : Nat) (pre' : List Nat) (a : Nat) (rest : List Nat)
    (c d : Nat) (rest2 : List Nat) :
    (getVersion store vid = some v → vid ∉ rootList →
      1 < (childrenOf store vid).length →
      delete_sub_version_reconnect store rootList vid =
        .error "Version has multiple children. Cannot maintain linear structure.") ∧
    (((p :: pre') ++ a :: rest).Nodup → a ∉ rl2 →
      (exceptOk? (delete_sub_version_reconnect
          (mkChain ((p :: pre') ++ a :: rest)) rl2 a)).map
          (fun q => (q.1.map (fun w => w.vid), q.1.map (fun w => w.branch_number),
                     q.1.map (fun w => w.parent_version_id), q.2)) =
        some ((p :: pre') ++ rest,
              (List.range ((p :: pre').length + rest.length)).map Int.ofNat,
              none :: (((p :: pre') ++ rest).dropLast.map some),
              rl2)) ∧
    ((c :: d :: rest2).Nodup → c ∉ rl3 →
      delete_sub_version_reconnect (mkChain (c :: d :: rest2)) rl3 c =
        .ok (mkChain (d :: rest2), rl3 ++ [d])) :=
  ⟨fun h1 h2 h3 => delete_multi_children_error store rootList vid v h1 h2 h3,
   fun h1 h2 => delete_splice_projection (p :: pre') a rest rl2
     (List.cons_ne_nil p pre') h1 h2,
   fun h1 h2 => delete_promote c d rest2 rl3 h1 h2⟩

/-- The C6 theorem at concrete inputs: a two-children store is rejected;
deleting version 2 from the chain 1 → 2 → 3 → 4 leaves 1 → 3 → 4 numbered
0, 1, 2; deleting the parentless head of 1 → 2 → 3 promotes 2 to a root. -/
theorem C6_delete_reconnect_renumber_witness :
    delete_sub_version_reconnect exC6Store [] 1 =
        .error "Version has multiple children. Cannot maintain linear structure." ∧
    (exceptOk? (delete_sub_version_reconnect
        (mkChain ((1 :: ([] : List Nat)) ++ 2 :: [3, 4])) [1] 2)).map
        (fun q => (q.1.map (fun w => w.vid), q.1.map (fun w => w.branch_number),
                   q.1.map (fun w => w.parent_version_id), q.2)) =
      some ((1 :: ([] : List Nat)) ++ [3, 4],
            (List.range ((1 :: ([] : List Nat)).length + [3, 4].length)).map Int.ofNat,
            none :: (((1 :: ([] : List Nat)) ++ [3, 4]).dropLast.map some),
            [1]) ∧
    delete_sub_version_reconnect (mkChain (1 :: 2 :: [3])) [] 1 =
      .ok (mkChain (2 :: [3]), [] ++ [2]) :=
  ⟨(C6_delete_reconnect_renumber exC6Store [] [1] [] 1 ⟨1, none, some 1, 0, 0⟩
      1 [] 2 [3, 4] 1 2 [3]).1 (by decide) (by decide) (by decide),
   (C6_delete_reconnect_renumber exC6Store [] [1] [] 1 ⟨1, none, some 1, 0, 0⟩
      1 [] 2 [3, 4] 1 2 [3]).2.1 (by decide) (by decide),
   (C6_delete_reconnect_renumber exC6Store [] [1] [] 1 ⟨1, none, some 1, 0, 0⟩
      1 [] 2 [3, 4] 1 2 [3]).2.2 (by decide) (by decide)⟩

end Aurifi

